import Mathlib

set_option autoImplicit false

namespace SmsReview

/-! Shallow embedding of the stasher-review-sms service: phone normalization
(`src/utils.ts`), the opt-out ledger and audit stores (`src/sqlite.ts`),
review-link resolution (`src/review-links.ts`), the SMS template renderer
(`src/template.ts`), the TextMagic sender (`src/textmagic.ts`), the daily
review job (`src/job.ts`) and the hourly Hivebox reminder job
(`src/hiveboxReminders/service.ts`). -/

/-- `pat` is an initial segment of `s` (literal match at the current position). -/
def matchesAt : List Char → List Char → Bool
  | [], _ => true
  | _ :: _, [] => false
  | c :: p, d :: s => c = d && matchesAt p s

/-- `s.startsWith(p)` on character lists (kernel-reducible replacement for the
builtin). -/
def strStartsWith (s p : String) : Bool := matchesAt p.data s.data

/-- `s.toLowerCase()` (ASCII case fold, as the city keys use). -/
def strToLower (s : String) : String := ⟨s.data.map Char.toLower⟩

/-- `s.trim()`: strip leading and trailing whitespace. -/
def jsTrim (s : String) : String :=
  ⟨((s.data.dropWhile Char.isWhitespace).reverse.dropWhile Char.isWhitespace).reverse⟩

/-- JavaScript truthiness of an optional string (`null`/`undefined`/`""` are falsy). -/
def jsTruthy : Option String → Bool
  | none => false
  | some s => s ≠ ""

/-- `s || t` on strings as JavaScript evaluates it for an optional left operand. -/
def jsOr (s : Option String) (t : String) : String :=
  if jsTruthy s then s.getD "" else t

/-- `s.substring(n)` by code points: drop the first `n` characters. -/
def strDrop (s : String) (n : Nat) : String := ⟨s.data.drop n⟩

/-- Strip every whitespace character: models `phone.trim().replace(/\s+/g, '')`,
which removes leading, trailing and internal whitespace alike. -/
def stripWhitespace (s : String) : String :=
  ⟨s.data.filter (fun c => !c.isWhitespace)⟩

/-- Decimal digit test used by the phone-library model. -/
def isDigitChar (c : Char) : Bool :=
  ['0', '1', '2', '3', '4', '5', '6', '7', '8', '9'].contains c

/-- A UK national significant number as the model of libphonenumber-js validity
for GB accepts it: ten digits beginning with 7 (mobile range). -/
def isUkNSN (s : String) : Bool :=
  s.length = 10 && s.data.all isDigitChar && s.data.head? = some '7'

/-- A NANP (US/Canada) national number in the model: ten digits whose first
digit is neither 0 nor 1. Present so that non-domestic E.164 inputs such as
+14155550100 parse successfully, as they do under the real library. -/
def isNanpNSN (s : String) : Bool :=
  s.length = 10 && s.data.all isDigitChar &&
    !(s.data.head? = some '0') && !(s.data.head? = some '1')

/-- Model of `isValidPhoneNumber(s)` called without a region: the string must be
in international form. -/
def isValidIntl (s : String) : Bool :=
  (strStartsWith s "+44" && isUkNSN (strDrop s 3)) ||
  (strStartsWith s "+1" && isNanpNSN (strDrop s 2))

/-- Model of `isValidPhoneNumber(s, 'GB')`: international strings are validated
as such; otherwise the string is read as a GB national number (leading 0
followed by the national significant number). -/
def isValidPhoneNumberGB (s : String) : Bool :=
  if strStartsWith s "+" then isValidIntl s
  else strStartsWith s "0" && isUkNSN (strDrop s 1)

/-- Model of `parsePhoneNumber(s, 'GB').number`: the E.164 form of a
whitespace-free string that passed GB validation. -/
def parseE164GB (s : String) : String :=
  if strStartsWith s "+" then s else "+44" ++ strDrop s 1

/-- The normalizer's successful result (`{ e164: string }`). -/
structure NormalizedPhone where
  e164 : String
deriving DecidableEq, Repr

/-- `normalizePhone` from `src/utils.ts`: reject null/empty input, strip
whitespace, try a direct GB parse, then retry after forcing the +44 prefix
(`defaultCountry` is always GB at the call sites); any remaining failure is
`null`, never an exception. -/
def normalizePhone (phone : Option String) : Option NormalizedPhone :=
  match phone with
  | none => none
  | some p =>
    if p = "" then none
    else
      let cleaned := stripWhitespace p
      if cleaned = "" then none
      else if isValidPhoneNumberGB cleaned then
        some ⟨parseE164GB cleaned⟩
      else
        let withCountry := "+44" ++ (if strStartsWith cleaned "+" then strDrop cleaned 1 else cleaned)
        if isValidIntl withCountry then some ⟨withCountry⟩
        else none

/-! ## Opt-out ledger (`src/sqlite.ts`, table `sms_opt_out`) -/

/-- One row of the `sms_opt_out` SQLite table (`phone_e164` is the PRIMARY KEY). -/
structure OptOutRow where
  phone_e164 : String
  created_at : String
  source : String
  note : Option String
deriving DecidableEq, Repr

/-- The `sms_opt_out` table as a row list. The PRIMARY KEY constraint is the
`OptOutDbWF` invariant below. -/
abbrev OptOutDb := List OptOutRow

/-- The PRIMARY KEY invariant: no two rows share a phone key. -/
def OptOutDbWF (db : OptOutDb) : Prop :=
  (db.map OptOutRow.phone_e164).Nodup

/-- `addOptOut` from `src/sqlite.ts`: INSERT .. ON CONFLICT(phone_e164) DO
UPDATE SET source, note, created_at = datetime('now'). `now` stands for the
database clock at the statement. -/
def addOptOut (db : OptOutDb) (phoneE164 source : String) (note : Option String)
    (now : String) : OptOutDb :=
  if db.any (fun r => r.phone_e164 = phoneE164) then
    db.map (fun r =>
      if r.phone_e164 = phoneE164 then
        { r with source := source, note := note, created_at := now }
      else r)
  else
    db ++ [{ phone_e164 := phoneE164, created_at := now, source := source, note := note }]

/-- `removeOptOut`: DELETE by key; returns the new table and `changes > 0`. -/
def removeOptOut (db : OptOutDb) (phoneE164 : String) : OptOutDb × Bool :=
  (db.filter (fun r => r.phone_e164 ≠ phoneE164),
   db.any (fun r => r.phone_e164 = phoneE164))

/-- `isOptedOut`: SELECT 1 .. WHERE phone_e164 = ? LIMIT 1, coerced to Bool. -/
def isOptedOut (db : OptOutDb) (phoneE164 : String) : Bool :=
  db.any (fun r => r.phone_e164 = phoneE164)

/-! ## Review links (`src/review-links.ts`) -/

/-- The loaded review-links map: lowercased city name to that city's URL list
(`ReviewLinksMap`, with a missing key standing for `undefined`). -/
abbrev ReviewLinksMap := List (String × List String)

/-- `map.get(city)` with `undefined` flattened to the empty list, which the
source treats identically (`!links || links.length === 0`). -/
def lookupCity (map : ReviewLinksMap) (city : String) : List String :=
  match map.find? (fun e => e.1 = city) with
  | some e => e.2
  | none => []

/-- `hasReviewLinks` from `src/review-links.ts`: the lowercased, trimmed city
has a non-empty link list. -/
def hasReviewLinks (map : ReviewLinksMap) (city : String) : Bool :=
  !(lookupCity map (jsTrim (strToLower city))).isEmpty

/-- `getRandomReviewUrl(city, fallbackToLondon)`: look the city up, optionally
fall back to the london pool, and pick one URL. The source draws
`Math.floor(Math.random() * links.length)`; the draw is supplied here as `r`
and reduced modulo the pool size. -/
def getRandomReviewUrl (map : ReviewLinksMap) (r : Nat) (city : String)
    (fallbackToLondon : Bool) : Option String :=
  let normalizedCity := jsTrim (strToLower city)
  let links0 := lookupCity map normalizedCity
  let links := if links0.isEmpty && fallbackToLondon then lookupCity map "london" else links0
  if links.isEmpty then none
  else links.get? (r % links.length)

/-! ## Template renderer (`src/template.ts`) -/

/-- The backquote character, written by code point. -/
def backquoteChar : Char := Char.ofNat 96

/-- The single-quote character, written by code point. -/
def singleQuoteChar : Char := Char.ofNat 39

/-- JavaScript's expansion of the replacement string at one match of
`String.prototype.replace`: `$$` inserts a dollar, `$&` the matched text,
`$` followed by a backquote the part of the subject before the match, `$`
followed by a single quote the part after it; every other sequence —
including `$n`, since the renderer's regexes have no capture groups — stays
literal. -/
def expandRep (matched before after : List Char) : List Char → List Char
  | [] => []
  | c :: r =>
    if c = '$' then
      match r with
      | [] => ['$']
      | c2 :: r2 =>
        if c2 = '$' then '$' :: expandRep matched before after r2
        else if c2 = '&' then matched ++ expandRep matched before after r2
        else if c2 = backquoteChar then before ++ expandRep matched before after r2
        else if c2 = singleQuoteChar then after ++ expandRep matched before after r2
        else '$' :: c2 :: expandRep matched before after r2
    else c :: expandRep matched before after r

/-- Fuel-indexed scanner for `replaceAllL`. `orig` is the whole subject string
of this replace call and `n` the current scan position (so the scanned
remainder `s` is `orig.drop n`); both feed the dollar-pattern expansion of
the replacement at each match. The fuel only serves structural recursion and
is always at least the scanned list's length at the call. -/
def replaceAllFuel : Nat → List Char → Nat → List Char → List Char → List Char → List Char
  | _, _, _, [], _, _ => []
  | 0, _, _, s, _, _ => s
  | fuel + 1, orig, n, c :: rest, pat, rep =>
    if pat ≠ [] && matchesAt pat (c :: rest) then
      expandRep pat (orig.take n) ((c :: rest).drop pat.length) rep ++
        replaceAllFuel fuel orig (n + pat.length) ((c :: rest).drop pat.length) pat rep
    else
      c :: replaceAllFuel fuel orig (n + 1) rest pat rep

/-- Left-to-right, non-overlapping replace-all of a literal pattern with a
replacement string, as `String.prototype.replace` with a global literal regex
performs it, including the special dollar replacement patterns. -/
def replaceAllL (s pat rep : List Char) : List Char :=
  replaceAllFuel s.length s 0 s pat rep

/-- The `TemplateVariables` record of `src/template.ts` (all fields optional;
`bookingId` is carried as the string JS would coerce it to). -/
structure TemplateVariables where
  firstName : Option String := none
  lastName : Option String := none
  fullName : Option String := none
  stashpointName : Option String := none
  reviewUrl : Option String := none
  city : Option String := none
  bookingId : Option String := none
deriving DecidableEq, Repr

/-- The `variableMap` object literal built inside `renderTemplate`, in source
order. Every `vars.x || ''` falls back to the empty string; `fullName`
additionally falls back to the trimmed concatenation of the name parts. -/
def variableMap (vars : TemplateVariables) : List (String × String) :=
  [("firstName", jsOr vars.firstName ""),
   ("lastName", jsOr vars.lastName ""),
   ("fullName", jsOr vars.fullName
      (jsTrim (jsOr vars.firstName "" ++ " " ++ jsOr vars.lastName ""))),
   ("stashpointName", jsOr vars.stashpointName ""),
   ("reviewUrl", jsOr vars.reviewUrl ""),
   ("city", jsOr vars.city ""),
   ("bookingId", jsOr vars.bookingId "")]

/-- The placeholder text for a key: `{key}`. -/
def placeholder (key : String) : List Char :=
  '{' :: key.data ++ ['}']

/-- Character-list core of `renderTemplate`: fold the replacements over the
variable map in its fixed order. -/
def renderTemplateL (template : List Char) (vars : TemplateVariables) : List Char :=
  (variableMap vars).foldl (fun acc kv => replaceAllL acc (placeholder kv.1) kv.2.data) template

/-- `renderTemplate` from `src/template.ts`. -/
def renderTemplate (template : String) (vars : TemplateVariables) : String :=
  ⟨renderTemplateL template.data vars⟩

/-- A template dissected into literal text and placeholder occurrences; used
to state what rendering does to arbitrary multi-placeholder templates. -/
inductive TemplatePiece where
  | lit (s : List Char)
  | ph (key : String)
deriving DecidableEq, Repr

/-- The template text a piece list denotes. -/
def flattenTemplate : List TemplatePiece → List Char
  | [] => []
  | .lit s :: r => s ++ flattenTemplate r
  | .ph k :: r => placeholder k ++ flattenTemplate r

/-- Replace every occurrence of the placeholder `k` by the literal `v`. -/
def substPiece (k : String) (v : List Char) : TemplatePiece → TemplatePiece
  | .lit s => .lit s
  | .ph k2 => if k2 = k then .lit v else .ph k2

/-- The value an association list assigns to a key (empty when absent). -/
def lookupValue (kvs : List (String × String)) (k : String) : String :=
  match kvs.find? (fun kv => kv.1 = k) with
  | some kv => kv.2
  | none => ""

/-- The rendering a piece list should receive: literals kept, each known
placeholder replaced by its field value. -/
def renderPieces (vars : TemplateVariables) : List TemplatePiece → List Char
  | [] => []
  | .lit s :: r => s ++ renderPieces vars r
  | .ph k :: r => (lookupValue (variableMap vars) k).data ++ renderPieces vars r

/-- A literal piece contains no opening brace (placeholders are unconstrained). -/
def pieceLitBraceFree : TemplatePiece → Bool
  | .lit s => decide ('{' ∉ s)
  | .ph _ => true

/-- A placeholder piece names one of the given keys (literals are unconstrained). -/
def pieceKeyKnown (keys : List String) : TemplatePiece → Bool
  | .lit _ => true
  | .ph k => decide (k ∈ keys)

/-! ## Sender (`src/textmagic.ts`) and durable-store events (`src/sqlite.ts`) -/

/-- The `SendSMSError` shape thrown by the sender. -/
structure SmsError where
  code : Nat
  message : String
deriving DecidableEq, Repr

/-- The `SendSMSResult` shape returned by the sender. -/
structure SendSMSResult where
  messageId : String
  phone : Option String := none
deriving DecidableEq, Repr

/-- `error.message || String(error)` for a caught `SendSMSError`. -/
def jsErrorMessage (e : SmsError) : String :=
  if e.message = "" then "[object Object]" else e.message

/-- The `status` column of `sms_send_log`. -/
inductive SmsStatus where
  | sent
  | skipped_opted_out
  | skipped_invalid_phone
  | skipped_non_uk
  | failed
deriving DecidableEq, Repr

/-- One `sms_send_log` insert as `logSMS` performs it (`booking_id` is
stringified, with falsy ids stored as NULL). -/
structure SMSLogEntry where
  feature : String
  booking_id : Option String
  phone : String
  pickup_time : Option String
  status : SmsStatus
  error : Option String
deriving DecidableEq, Repr

/-- A freshly inserted `job_run_summary` row. -/
structure JobRunSummaryRow where
  feature : String
  started_at : String
  finished_at : Option String
  fetched_count : Nat
  sent_count : Nat
  skipped_count : Nat
  failed_count : Nat
  error : Option String
deriving DecidableEq, Repr

/-- The `Partial` update record passed to `updateJobRunSummary`; `none` is an
absent (`undefined`) field. -/
structure SummaryUpdate where
  finished_at : Option (Option String) := none
  fetched_count : Option Nat := none
  sent_count : Option Nat := none
  skipped_count : Option Nat := none
  failed_count : Option Nat := none
  error : Option (Option String) := none
deriving DecidableEq, Repr

/-- Externally observable durable effects of a run: the candidate query, every
SQLite write, and every outbound transport (network) call. -/
inductive Event where
  | fetch
  | createSummary (row : JobRunSummaryRow)
  | updateSummary (id : Nat) (upd : SummaryUpdate)
  | logSms (entry : SMSLogEntry)
  | transportCall (phone : String) (text : String)
deriving DecidableEq, Repr

/-- The UPDATE statements `updateJobRunSummary` actually executes: it copies
only `finished_at`, `sent_count`, `skipped_count`, `failed_count` and `error`
into the SET clause — a supplied `fetched_count` is silently dropped — and
executes nothing at all when no supported field is present. -/
def updateJobRunSummaryEvents (id : Nat) (upd : SummaryUpdate) : List Event :=
  let applied : SummaryUpdate := { upd with fetched_count := none }
  if applied = {} then [] else [.updateSummary id applied]

/-- `sendSMS` from `src/textmagic.ts`. In DRY_RUN it performs no network call
and fabricates the id `dry-run-${Date.now()}`; live it performs one transport
call whose outcome `t` (provider message id, or `{code, message}` rejection)
is supplied by the environment. `RateLimitedSMS.send` delegates here and only
adds a delay, which has no observable effect in this model. -/
def sendSMS (cfgDryRun : Bool) (nowMs : Nat) (t : Except SmsError String)
    (dest text : String) : Except SmsError SendSMSResult × List Event :=
  if cfgDryRun then
    (.ok { messageId := "dry-run-" ++ toString nowMs }, [])
  else
    match t with
    | .ok id => (.ok { messageId := id, phone := some dest }, [.transportCall dest text])
    | .error e => (.error e, [.transportCall dest text])

/-! ## Daily review job (`src/job.ts`) -/

/-- The `SMS_TEMPLATE` function from `src/config.ts`. -/
def SMS_TEMPLATE (firstName : Option String) (reviewLink : String) : String :=
  let name := if jsTruthy firstName then jsTrim (firstName.getD "") else ""
  let greeting := if name ≠ "" then "Hi " ++ name ++ "\n" else "Hi\n"
  greeting ++ "Stasher would love your feedback! Leave a review here: " ++ reviewLink

/-- The `JobStats` record of `src/job.ts`. -/
structure JobStats where
  found : Nat := 0
  eligible : Nat := 0
  skippedNoPhone : Nat := 0
  skippedInvalidPhone : Nat := 0
  skippedOptedOut : Nat := 0
  skippedNoReviewLink : Nat := 0
  skippedNonUK : Nat := 0
  sent : Nat := 0
  failed : Nat := 0
deriving DecidableEq, Repr

/-- The `BookingRow` interface of `src/job.ts` (`pickup` carried as its ISO
string). -/
structure BookingRow where
  booking_id : Nat
  stashpoint_name : String
  city : Option String
  phone_number : Option String
  first_name : Option String
  last_name : Option String
  pickup : Option String
deriving DecidableEq, Repr

/-- The outcome of the first-pass filter for one booking: eligible with its
normalized phone, resolved review URL and fallback marker, or exactly one
skip reason. -/
inductive FilterOutcome where
  | eligible (phoneE164 reviewUrl : String) (usedLondonFallback : Bool)
  | skipNoPhone
  | skipInvalidPhone
  | skipNonUK
  | skipOptedOut
  | skipNoReviewLink
deriving DecidableEq, Repr

/-- The UK check of `runJob`: normalized number starts with +44, or the raw
string (re-checked for truthiness as the source does) trimmed starts with 07. -/
def ukPhoneCheck (booking : BookingRow) (normalized : NormalizedPhone) : Bool :=
  strStartsWith normalized.e164 "+44" ||
    (jsTruthy booking.phone_number &&
      strStartsWith (jsTrim (booking.phone_number.getD "")) "07")

/-- The review-URL resolution of `runJob`: the city pool when the city is
truthy and has links, else the london pool; the Bool is
`usedLondonFallback`. -/
def resolveReviewUrl (map : ReviewLinksMap) (r1 r2 : Nat) (booking : BookingRow) :
    Option (String × Bool) :=
  let r0 :=
    if jsTruthy booking.city && hasReviewLinks map (booking.city.getD "") then
      getRandomReviewUrl map r1 (booking.city.getD "") false
    else none
  match r0 with
  | some url => some (url, false)
  | none =>
    match getRandomReviewUrl map r2 "london" false with
    | some url => some (url, true)
    | none => none

/-- The body of the first-pass loop of `runJob` for one booking, in source
order: phone present, normalizes, UK test, not opted out, review URL
resolvable. `r1`/`r2` are the random draws the two potential
`getRandomReviewUrl` calls would consume. -/
def classifyBooking (db : OptOutDb) (map : ReviewLinksMap) (r1 r2 : Nat)
    (booking : BookingRow) : FilterOutcome :=
  if !jsTruthy booking.phone_number then .skipNoPhone
  else
    match normalizePhone booking.phone_number with
    | none => .skipInvalidPhone
    | some normalized =>
      if !ukPhoneCheck booking normalized then .skipNonUK
      else if isOptedOut db normalized.e164 then .skipOptedOut
      else
        match resolveReviewUrl map r1 r2 booking with
        | some (url, fb) => .eligible normalized.e164 url fb
        | none => .skipNoReviewLink

/-- An entry of `eligibleBookings`: the booking spread together with
`phoneE164` and `reviewUrl`. -/
structure EligibleBooking where
  booking : BookingRow
  phoneE164 : String
  reviewUrl : String
deriving DecidableEq, Repr

/-- One step of the first-pass fold: record the outcome of `classifyBooking`
in exactly one stats bucket, appending eligible bookings in fetch order. -/
def filterStep (db : OptOutDb) (map : ReviewLinksMap) (rands : Nat → Nat × Nat)
    (acc : JobStats × List EligibleBooking) (ib : Nat × BookingRow) :
    JobStats × List EligibleBooking :=
  let (stats, elig) := acc
  let (i, booking) := ib
  match classifyBooking db map (rands i).1 (rands i).2 booking with
  | .eligible e164 url _ =>
      ({ stats with eligible := stats.eligible + 1 }, elig ++ [⟨booking, e164, url⟩])
  | .skipNoPhone => ({ stats with skippedNoPhone := stats.skippedNoPhone + 1 }, elig)
  | .skipInvalidPhone =>
      ({ stats with skippedInvalidPhone := stats.skippedInvalidPhone + 1 }, elig)
  | .skipNonUK => ({ stats with skippedNonUK := stats.skippedNonUK + 1 }, elig)
  | .skipOptedOut => ({ stats with skippedOptedOut := stats.skippedOptedOut + 1 }, elig)
  | .skipNoReviewLink =>
      ({ stats with skippedNoReviewLink := stats.skippedNoReviewLink + 1 }, elig)

/-- The first pass of `runJob`: filter and validate every fetched booking. -/
def runFilterPass (db : OptOutDb) (map : ReviewLinksMap) (rands : Nat → Nat × Nat)
    (stats : JobStats) (bookings : List BookingRow) : JobStats × List EligibleBooking :=
  bookings.enum.foldl (filterStep db map rands) (stats, [])

deriving instance DecidableEq for Except

/-- What the second-pass loop records for one eligible booking: the console
audit line's content — provider message id on success, the caught
`{code, message}` error on failure. -/
structure SendRecord where
  booking_id : Nat
  phone : String
  result : Except SmsError String
deriving DecidableEq, Repr

/-- One step of the second-pass (sending) fold of `runJob`: render the message,
send through the rate-limited sender, count sent/failed, and always continue
(the catch swallows the per-candidate error). -/
def sendStep (cfgDryRun : Bool) (nowMs : Nat) (transport : Nat → Except SmsError String)
    (acc : Nat × Nat × List SendRecord × List Event) (ib : Nat × EligibleBooking) :
    Nat × Nat × List SendRecord × List Event :=
  let (sent, failed, recs, evs) := acc
  let (i, eb) := ib
  let message := SMS_TEMPLATE eb.booking.first_name eb.reviewUrl
  match sendSMS cfgDryRun nowMs (transport i) eb.phoneE164 message with
  | (.ok result, sevs) =>
      (sent + 1, failed, recs ++ [⟨eb.booking.booking_id, eb.phoneE164, .ok result.messageId⟩],
       evs ++ sevs)
  | (.error e, sevs) =>
      (sent, failed + 1, recs ++ [⟨eb.booking.booking_id, eb.phoneE164, .error e⟩],
       evs ++ sevs)

/-- The second pass of `runJob`: send to every eligible booking in order.
`transport i` is the provider's answer to the i-th attempted send. -/
def runSendPass (cfgDryRun : Bool) (nowMs : Nat) (transport : Nat → Except SmsError String)
    (eligible : List EligibleBooking) : Nat × Nat × List SendRecord × List Event :=
  eligible.enum.foldl (sendStep cfgDryRun nowMs transport) (0, 0, [], [])

/-- `runJob` from `src/job.ts`: query the window (the `.fetch` event), set
`found`, return immediately when nothing was fetched, otherwise filter then
send. The daily job writes nothing to SQLite: no summary row, no send-log
rows — its only durable effects are the query and the transport calls. -/
def runJob (db : OptOutDb) (map : ReviewLinksMap) (rands : Nat → Nat × Nat)
    (transport : Nat → Except SmsError String) (cfgDryRun : Bool) (nowMs : Nat)
    (bookings : List BookingRow) : JobStats × List SendRecord × List Event :=
  let stats : JobStats := {}
  let stats := { stats with found := bookings.length }
  if bookings.length = 0 then (stats, [], [.fetch])
  else
    let (stats, eligibleBookings) := runFilterPass db map rands stats bookings
    let (sent, failed, recs, sendEvs) := runSendPass cfgDryRun nowMs transport eligibleBookings
    ({ stats with sent := sent, failed := failed }, recs, [.fetch] ++ sendEvs)

/-! ## Hourly Hivebox reminder job (`src/hiveboxReminders/service.ts`) -/

/-- The `HiveboxJobStats` record. -/
structure HiveboxJobStats where
  fetched : Nat := 0
  sent : Nat := 0
  skippedOptedOut : Nat := 0
  skippedInvalidPhone : Nat := 0
  skippedNonUK : Nat := 0
  failed : Nat := 0
deriving DecidableEq, Repr

/-- The `HiveboxBookingRow` interface of `src/hiveboxReminders/query.ts`. -/
structure HiveboxBookingRow where
  first_name : Option String
  last_name : Option String
  phone_number : Option String
  booking_id : Nat
  pickup : Option String
  stashpoint_name : String
  city : Option String
  access_code : String
deriving DecidableEq, Repr

/-- The hivebox job's feature name constant. -/
def hiveboxFeatureName : String := "hivebox_pickup_reminder"

/-- `createHiveboxMessage`: personal greeting when a trimmed first name is
non-empty, else a generic one. -/
def createHiveboxMessage (firstName : Option String) : String :=
  let greeting :=
    if jsTruthy firstName && jsTrim (firstName.getD "") ≠ "" then
      "Hi " ++ jsTrim (firstName.getD "")
    else "Hi there"
  greeting ++
    "\n\nYour locker booking with Stasher ended an hour ago. If you have picked up your items, thank you! Otherwise, please do so or contact Support."

/-- `isUKNumber` from `src/hiveboxReminders/service.ts`. -/
def isUKNumber (e164 : String) (originalPhone : Option String) : Bool :=
  if strStartsWith e164 "+44" then true
  else if !jsTruthy originalPhone then false
  else strStartsWith (jsTrim (originalPhone.getD "")) "07"

/-- The `logSMS` insert the hivebox loop performs for one booking: the
`booking_id` is stringified with falsy (zero) ids stored as NULL, and
`pickup_time` mirrors `booking.pickup ? ISO : null`. -/
def hiveboxLogEntry (booking : HiveboxBookingRow) (phone : String) (status : SmsStatus)
    (error : Option String) : SMSLogEntry :=
  { feature := hiveboxFeatureName,
    booking_id := if booking.booking_id ≠ 0 then some (toString booking.booking_id) else none,
    phone := phone,
    pickup_time := booking.pickup,
    status := status,
    error := error }

/-- The body of the hivebox per-booking loop, in source order: normalize (else
log invalid), UK check (else log non-UK), opt-out check (else log opted out),
then send — short-circuited by `isDryRun` — logging `sent` on success and
`failed` with the error message on a caught send error. The loop never
rethrows. -/
def hiveboxStep (db : OptOutDb) (cfgDryRun isDryRun : Bool) (nowMs : Nat)
    (transport : Nat → Except SmsError String)
    (acc : HiveboxJobStats × List Event) (ib : Nat × HiveboxBookingRow) :
    HiveboxJobStats × List Event :=
  let (stats, evs) := acc
  let (i, booking) := ib
  match normalizePhone booking.phone_number with
  | none =>
      ({ stats with skippedInvalidPhone := stats.skippedInvalidPhone + 1 },
       evs ++ [.logSms (hiveboxLogEntry booking (jsOr booking.phone_number "unknown")
         .skipped_invalid_phone (some "Invalid phone number format"))])
  | some normalized =>
    if !isUKNumber normalized.e164 booking.phone_number then
      ({ stats with skippedNonUK := stats.skippedNonUK + 1 },
       evs ++ [.logSms (hiveboxLogEntry booking normalized.e164 .skipped_non_uk
         (some "Non-UK phone number"))])
    else if isOptedOut db normalized.e164 then
      ({ stats with skippedOptedOut := stats.skippedOptedOut + 1 },
       evs ++ [.logSms (hiveboxLogEntry booking normalized.e164 .skipped_opted_out none)])
    else
      let message := createHiveboxMessage booking.first_name
      if isDryRun then
        ({ stats with sent := stats.sent + 1 },
         evs ++ [.logSms (hiveboxLogEntry booking normalized.e164 .sent none)])
      else
        match sendSMS cfgDryRun nowMs (transport i) normalized.e164 message with
        | (.ok _, sevs) =>
            ({ stats with sent := stats.sent + 1 },
             evs ++ sevs ++ [.logSms (hiveboxLogEntry booking normalized.e164 .sent none)])
        | (.error e, sevs) =>
            ({ stats with failed := stats.failed + 1 },
             evs ++ sevs ++
               [.logSms (hiveboxLogEntry booking normalized.e164 .failed
                 (some (jsErrorMessage e)))])

/-- `runHiveboxReminderJob` from `src/hiveboxReminders/service.ts`. The summary
row is inserted (with zero counts, `started_at`, NULL `finished_at`) before
the query runs; `fetchResult` is the query's outcome (`.error` = the thrown
error's message); on that error the summary is stamped with `finished_at` and
the error and the exception propagates (`.error` result). On success the
per-booking loop runs and the summary is stamped with `finished_at` and the
final counts. -/
def runHiveboxReminderJob (db : OptOutDb) (cfgDryRun : Bool) (jobRunId : Nat)
    (startedAt finishedAt : String) (nowMs : Nat)
    (fetchResult : Except String (List HiveboxBookingRow))
    (transport : Nat → Except SmsError String) (isDryRun : Bool) :
    Except String HiveboxJobStats × List Event :=
  let summaryRow : JobRunSummaryRow :=
    { feature := hiveboxFeatureName, started_at := startedAt, finished_at := none,
      fetched_count := 0, sent_count := 0, skipped_count := 0, failed_count := 0,
      error := none }
  let ev0 : List Event := [.createSummary summaryRow]
  match fetchResult with
  | .error e =>
      (.error e,
       ev0 ++ [.fetch] ++
         updateJobRunSummaryEvents jobRunId
           { finished_at := some (some finishedAt), error := some (some e) })
  | .ok bookings =>
      let stats : HiveboxJobStats := { fetched := bookings.length }
      let ev1 := ev0 ++ [.fetch] ++
        updateJobRunSummaryEvents jobRunId { fetched_count := some bookings.length }
      if bookings.isEmpty then
        (.ok stats,
         ev1 ++ updateJobRunSummaryEvents jobRunId { finished_at := some (some finishedAt) })
      else
        let (stats, evs) :=
          bookings.enum.foldl (hiveboxStep db cfgDryRun isDryRun nowMs transport) (stats, ev1)
        let skippedTotal := stats.skippedOptedOut + stats.skippedInvalidPhone + stats.skippedNonUK
        (.ok stats,
         evs ++ updateJobRunSummaryEvents jobRunId
           { finished_at := some (some finishedAt), sent_count := some stats.sent,
             skipped_count := some skippedTotal, failed_count := some stats.failed })

/-! ## Observation helpers used by the verification statements -/

/-- Sum of the five skip counters of the daily job's stats. -/
def skipTotal (s : JobStats) : Nat :=
  s.skippedNoPhone + s.skippedInvalidPhone + s.skippedNonUK +
    s.skippedOptedOut + s.skippedNoReviewLink

/-- Number of hivebox candidates accounted for by a terminal outcome. -/
def hiveboxHandled (s : HiveboxJobStats) : Nat :=
  s.sent + s.failed + s.skippedOptedOut + s.skippedInvalidPhone + s.skippedNonUK

/-- Whether an `Except` is a success. -/
def exceptOk {e a : Type} : Except e a → Bool
  | .ok _ => true
  | .error _ => false

/-- The per-candidate result the daily sending loop observes for the i-th
eligible booking: the provider message id, or the caught error. -/
def sendOutcome (cfgDryRun : Bool) (nowMs : Nat) (transport : Nat → Except SmsError String)
    (ib : Nat × EligibleBooking) : Except SmsError String :=
  ((sendSMS cfgDryRun nowMs (transport ib.1) ib.2.phoneE164
      (SMS_TEMPLATE ib.2.booking.first_name ib.2.reviewUrl)).1).map SendSMSResult.messageId

/-- Event classifiers for trace statements. -/
def isCreateSummaryEvent : Event → Bool
  | .createSummary _ => true
  | _ => false

/-- Whether an event is an outbound transport (network) call. -/
def isTransportCallEvent : Event → Bool
  | .transportCall _ _ => true
  | _ => false

/-- Whether an event is an `sms_send_log` insert. -/
def isLogSmsEvent : Event → Bool
  | .logSms _ => true
  | _ => false

/-! ## Verification -/

theorem digit_not_whitespace {c : Char} (h : isDigitChar c = true) :
    c.isWhitespace = false := by
  simp only [isDigitChar, List.contains_eq_any_beq, List.any_eq_true, beq_iff_eq] at h
  rcases h with ⟨d, hd, rfl⟩
  fin_cases hd <;> decide

theorem data_append (s t : String) : (s ++ t).data = s.data ++ t.data :=
  String.data_append s t

/-- Claim C5: every null, empty, or whitespace-only raw phone input normalizes
to the invalid (none) result, and for every input whatsoever the normalizer
yields either a normal result or none — it is a total function and never
throws. -/
theorem normalizePhone_blank_invalid_total (phone : Option String) :
    ((phone = none ∨ ∀ c ∈ (phone.getD "").data, c.isWhitespace = true) →
      normalizePhone phone = none) ∧
    (normalizePhone phone = none ∨ ∃ r, normalizePhone phone = some r) := by
  constructor
  · intro h
    match phone with
    | none => rfl
    | some p =>
      simp only [Option.getD_some] at h
      rcases h with h | h
      · cases h
      by_cases hp : p = ""
      · simp [normalizePhone, hp]
      · have hclean : stripWhitespace p = "" := by
          simp only [stripWhitespace]
          have : p.data.filter (fun c => !c.isWhitespace) = [] := by
            apply List.filter_eq_nil_iff.mpr
            intro c hc
            simp [h c hc]
          rw [this]
        simp [normalizePhone, hp, hclean]
  · cases h : normalizePhone phone
    · exact Or.inl rfl
    · exact Or.inr ⟨_, rfl⟩

theorem string_eta (l : List Char) : (⟨l⟩ : String).data = l := rfl

-- C6 helper
theorem strip_id_of_no_ws (x : String) (h : ∀ c ∈ x.data, c.isWhitespace = false) :
    stripWhitespace x = x := by
  have hf : x.data.filter (fun c => !c.isWhitespace) = x.data :=
    List.filter_eq_self.mpr (by intro c hc; simp [h c hc])
  simp only [stripWhitespace, hf]

theorem normalizePhone_intl_local (nsn : String) (h : isUkNSN nsn = true) :
    normalizePhone (some ("+44" ++ nsn)) = some ⟨"+44" ++ nsn⟩ ∧
    normalizePhone (some ("0" ++ nsn)) = some ⟨"+44" ++ nsn⟩ := by
  have hall : ∀ c ∈ nsn.data, isDigitChar c = true := by
    simp only [isUkNSN, Bool.and_eq_true, List.all_eq_true] at h
    exact h.1.2
  have hx : ("+44" ++ nsn).data = '+' :: '4' :: '4' :: nsn.data := by
    rw [String.data_append]; rfl
  have hy : ("0" ++ nsn).data = '0' :: nsn.data := by
    rw [String.data_append]; rfl
  have hws : ∀ c ∈ nsn.data, c.isWhitespace = false := fun c hc =>
    digit_not_whitespace (hall c hc)
  constructor
  · -- international form
    have hne : ("+44" ++ nsn) ≠ "" := by
      intro he
      have := congrArg String.data he
      rw [hx] at this
      cases this
    have hstrip : stripWhitespace ("+44" ++ nsn) = "+44" ++ nsn := by
      apply strip_id_of_no_ws
      rw [hx]
      intro c hc
      rcases hc with _ | ⟨_, _ | ⟨_, _ | ⟨_, hc⟩⟩⟩
      · decide
      · decide
      · decide
      · exact hws c hc
    have hplus : strStartsWith ("+44" ++ nsn) "+" = true := by
      simp [strStartsWith, hx, matchesAt]
    have h44 : strStartsWith ("+44" ++ nsn) "+44" = true := by
      simp [strStartsWith, hx, matchesAt]
    have hdrop : strDrop ("+44" ++ nsn) 3 = nsn := by
      simp [strDrop, hx]
    have hvalid : isValidPhoneNumberGB ("+44" ++ nsn) = true := by
      simp [isValidPhoneNumberGB, hplus, isValidIntl, h44, hdrop, h]
    have hparse : parseE164GB ("+44" ++ nsn) = "+44" ++ nsn := by
      simp [parseE164GB, hplus]
    simp [normalizePhone, hne, hstrip, hvalid, hparse]
  · -- local form
    have hne : ("0" ++ nsn) ≠ "" := by
      intro he
      have := congrArg String.data he
      rw [hy] at this
      cases this
    have hstrip : stripWhitespace ("0" ++ nsn) = "0" ++ nsn := by
      apply strip_id_of_no_ws
      rw [hy]
      intro c hc
      rcases hc with _ | ⟨_, hc⟩
      · decide
      · exact hws c hc
    have hplus : strStartsWith ("0" ++ nsn) "+" = false := by
      simp [strStartsWith, hy, matchesAt]
    have h0 : strStartsWith ("0" ++ nsn) "0" = true := by
      simp [strStartsWith, hy, matchesAt]
    have hdrop : strDrop ("0" ++ nsn) 1 = nsn := by
      simp [strDrop, hy]
    have hvalid : isValidPhoneNumberGB ("0" ++ nsn) = true := by
      simp [isValidPhoneNumberGB, hplus, h0, hdrop, h]
    have hparse : parseE164GB ("0" ++ nsn) = "+44" ++ nsn := by
      simp [parseE164GB, hplus, hdrop]
    simp [normalizePhone, hne, hstrip, hvalid, hparse]

theorem isOptedOut_iff (db : OptOutDb) (phone : String) :
    isOptedOut db phone = true ↔ ∃ r ∈ db, r.phone_e164 = phone := by
  simp [isOptedOut]

theorem optout_add_then_member (db : OptOutDb) (phone s1 : String) (n1 : Option String)
    (t1 : String) : isOptedOut (addOptOut db phone s1 n1 t1) phone = true := by
  rw [isOptedOut_iff]
  by_cases hmem : db.any (fun r => r.phone_e164 = phone) = true
  · obtain ⟨r, hr, hrp⟩ := by simpa [List.any_eq_true] using hmem
    simp only [addOptOut, hmem, if_true]
    refine ⟨if r.phone_e164 = phone then
      { r with source := s1, note := n1, created_at := t1 } else r, List.mem_map_of_mem _ hr, ?_⟩
    simp [hrp]
  · simp only [addOptOut, hmem, if_false]
    exact ⟨_, List.mem_append_right _ (List.mem_singleton_self _), rfl⟩

theorem optout_remove_then_not_member (db : OptOutDb) (phone : String) :
    isOptedOut (removeOptOut db phone).1 phone = false := by
  simp only [removeOptOut, isOptedOut]
  rw [Bool.eq_false_iff]
  intro hany
  obtain ⟨r, hr, hrp⟩ := List.any_eq_true.mp hany
  have := (List.mem_filter.mp hr).2
  simp only [decide_eq_true_eq] at hrp
  simp [hrp] at this


theorem filter_key_map (db : OptOutDb) (phone : String) (f : OptOutRow → OptOutRow)
    (hf : ∀ r, (f r).phone_e164 = r.phone_e164) :
    (db.map f).filter (fun r => r.phone_e164 = phone) =
      (db.filter (fun r => r.phone_e164 = phone)).map f := by
  rw [List.filter_map]
  have : ((fun r => decide (r.phone_e164 = phone)) ∘ f) =
      (fun r => decide (r.phone_e164 = phone)) := by
    funext r
    simp [hf r]
  rw [this]

theorem filter_key_len_one (db : OptOutDb) (phone : String) (hwf : OptOutDbWF db)
    (hmem : db.any (fun r => r.phone_e164 = phone) = true) :
    (db.filter (fun r => r.phone_e164 = phone)).length = 1 := by
  induction db with
  | nil => simp at hmem
  | cons r db ih =>
    have hwf2 : OptOutDbWF db := (List.nodup_cons.mp hwf).2
    have hnotin : r.phone_e164 ∉ db.map OptOutRow.phone_e164 := (List.nodup_cons.mp hwf).1
    by_cases hr : r.phone_e164 = phone
    · have hnone : db.filter (fun x => x.phone_e164 = phone) = [] := by
        apply List.filter_eq_nil_iff.mpr
        intro x hx
        simp only [decide_eq_true_eq]
        intro hxp
        exact hnotin (hr ▸ hxp ▸ List.mem_map_of_mem _ hx)
      simp [List.filter_cons, hr, hnone]
    · have hmem2 : db.any (fun x => x.phone_e164 = phone) = true := by
        simp only [List.any_cons, Bool.or_eq_true] at hmem
        rcases hmem with h | h
        · simp [hr] at h
        · exact h
      simp [List.filter_cons, hr, ih hwf2 hmem2]

theorem addOptOut_upsert (db : OptOutDb) (phone s1 s2 : String)
    (n1 n2 : Option String) (t1 t2 : String) (hwf : OptOutDbWF db) :
    ((addOptOut (addOptOut db phone s1 n1 t1) phone s2 n2 t2).filter
        (fun r => r.phone_e164 = phone)).length = 1 ∧
    ∀ r ∈ addOptOut (addOptOut db phone s1 n1 t1) phone s2 n2 t2,
      r.phone_e164 = phone → r.source = s2 := by
  set db1 := addOptOut db phone s1 n1 t1 with hdb1
  have hmem1 : db1.any (fun r => r.phone_e164 = phone) = true :=
    optout_add_then_member db phone s1 n1 t1
  have hlen1 : (db1.filter (fun r => r.phone_e164 = phone)).length = 1 := by
    rw [hdb1]
    simp only [addOptOut]
    by_cases hmem : db.any (fun r => r.phone_e164 = phone) = true
    · rw [if_pos hmem, filter_key_map]
      · rw [List.length_map]
        exact filter_key_len_one db phone hwf hmem
      · intro r
        by_cases h : r.phone_e164 = phone <;> simp [h]
    · rw [if_neg hmem]
      have hnone : db.filter (fun x => x.phone_e164 = phone) = [] := by
        apply List.filter_eq_nil_iff.mpr
        intro x hx
        simp only [decide_eq_true_eq]
        intro hxp
        exact hmem (List.any_eq_true.mpr ⟨x, hx, by simp [hxp]⟩)
      simp [List.filter_append, hnone]
  have hupd : addOptOut db1 phone s2 n2 t2 =
      db1.map (fun r => if r.phone_e164 = phone then
        { r with source := s2, note := n2, created_at := t2 } else r) := by
    simp only [addOptOut, hmem1, if_true]
  constructor
  · rw [hupd, filter_key_map]
    · rw [List.length_map]
      exact hlen1
    · intro r
      by_cases h : r.phone_e164 = phone <;> simp [h]
  · intro r hr hrp
    rw [hupd] at hr
    obtain ⟨r0, _, rfl⟩ := List.mem_map.mp hr
    by_cases h : r0.phone_e164 = phone
    · simp [h]
    · simp only [if_neg h] at hrp ⊢
      exact absurd hrp h

/-- The daily filter applies its checks in the fixed order no-phone,
invalid-phone, non-UK, opted-out, no-review-link; each skip outcome is
characterized by its check being the first to fail, so every skipped
candidate receives exactly one skip reason and later checks are never
consulted. -/
theorem classifyBooking_cases (db : OptOutDb) (map : ReviewLinksMap) (r1 r2 : Nat)
    (b : BookingRow) :
    (classifyBooking db map r1 r2 b = .skipNoPhone ↔ jsTruthy b.phone_number = false) ∧
    (classifyBooking db map r1 r2 b = .skipInvalidPhone ↔
      jsTruthy b.phone_number = true ∧ normalizePhone b.phone_number = none) ∧
    (classifyBooking db map r1 r2 b = .skipNonUK ↔
      jsTruthy b.phone_number = true ∧ ∃ n, normalizePhone b.phone_number = some n ∧
        ukPhoneCheck b n = false) ∧
    (classifyBooking db map r1 r2 b = .skipOptedOut ↔
      jsTruthy b.phone_number = true ∧ ∃ n, normalizePhone b.phone_number = some n ∧
        ukPhoneCheck b n = true ∧ isOptedOut db n.e164 = true) ∧
    (classifyBooking db map r1 r2 b = .skipNoReviewLink ↔
      jsTruthy b.phone_number = true ∧ ∃ n, normalizePhone b.phone_number = some n ∧
        ukPhoneCheck b n = true ∧ isOptedOut db n.e164 = false ∧
        resolveReviewUrl map r1 r2 b = none) := by
  by_cases h1 : jsTruthy b.phone_number = true
  · cases h2 : normalizePhone b.phone_number with
    | none => simp [classifyBooking, h1, h2]
    | some n =>
      by_cases h3 : ukPhoneCheck b n = true
      · by_cases h4 : isOptedOut db n.e164 = true
        · simp [classifyBooking, h1, h2, h3, h4]
        · cases h5 : resolveReviewUrl map r1 r2 b with
          | none => simp [classifyBooking, h1, h2, h3, h4, h5]
          | some p =>
            simp [classifyBooking, h1, h2, h3, h4, h5]
      · simp [classifyBooking, h1, h2, h3]
  · simp only [Bool.not_eq_true] at h1
    simp [classifyBooking, h1]

theorem sendSMS_no_logSms (cfgDryRun : Bool) (nowMs : Nat)
    (t : Except SmsError String) (dest text : String) :
    ((sendSMS cfgDryRun nowMs t dest text).2).filter isLogSmsEvent = [] := by
  unfold sendSMS
  cases cfgDryRun <;> cases t <;> simp [isLogSmsEvent]

/-- The hourly per-booking loop applies its checks in the fixed order
invalid-phone, non-UK, opted-out: exactly one stats bucket is bumped per
candidate, each skip bucket is bumped precisely when its check is the first
to fail, the send path is reached precisely when all checks pass, and exactly
one `sms_send_log` row is written per candidate, whose status names that
single reason. -/
theorem hiveboxStep_cases (db : OptOutDb) (cfgDryRun isDryRun : Bool) (nowMs : Nat)
    (transport : Nat → Except SmsError String) (stats : HiveboxJobStats)
    (evs : List Event) (i : Nat) (bk : HiveboxBookingRow) :
    ((hiveboxStep db cfgDryRun isDryRun nowMs transport (stats, evs) (i, bk)).1.skippedInvalidPhone +
        (hiveboxStep db cfgDryRun isDryRun nowMs transport (stats, evs) (i, bk)).1.skippedNonUK +
        (hiveboxStep db cfgDryRun isDryRun nowMs transport (stats, evs) (i, bk)).1.skippedOptedOut +
        (hiveboxStep db cfgDryRun isDryRun nowMs transport (stats, evs) (i, bk)).1.sent +
        (hiveboxStep db cfgDryRun isDryRun nowMs transport (stats, evs) (i, bk)).1.failed =
      stats.skippedInvalidPhone + stats.skippedNonUK + stats.skippedOptedOut +
        stats.sent + stats.failed + 1) ∧
    ((hiveboxStep db cfgDryRun isDryRun nowMs transport (stats, evs) (i, bk)).1.skippedInvalidPhone =
        stats.skippedInvalidPhone + 1 ↔
      normalizePhone bk.phone_number = none) ∧
    ((hiveboxStep db cfgDryRun isDryRun nowMs transport (stats, evs) (i, bk)).1.skippedNonUK =
        stats.skippedNonUK + 1 ↔
      ∃ n, normalizePhone bk.phone_number = some n ∧
        isUKNumber n.e164 bk.phone_number = false) ∧
    ((hiveboxStep db cfgDryRun isDryRun nowMs transport (stats, evs) (i, bk)).1.skippedOptedOut =
        stats.skippedOptedOut + 1 ↔
      ∃ n, normalizePhone bk.phone_number = some n ∧
        isUKNumber n.e164 bk.phone_number = true ∧ isOptedOut db n.e164 = true) ∧
    ((hiveboxStep db cfgDryRun isDryRun nowMs transport (stats, evs) (i, bk)).1.sent +
        (hiveboxStep db cfgDryRun isDryRun nowMs transport (stats, evs) (i, bk)).1.failed =
        stats.sent + stats.failed + 1 ↔
      ∃ n, normalizePhone bk.phone_number = some n ∧
        isUKNumber n.e164 bk.phone_number = true ∧ isOptedOut db n.e164 = false) ∧
    (∃ entry w,
      (hiveboxStep db cfgDryRun isDryRun nowMs transport (stats, evs) (i, bk)).2 = evs ++ w ∧
      w.filter isLogSmsEvent = [.logSms entry] ∧
      (entry.status = .skipped_invalid_phone ↔ normalizePhone bk.phone_number = none) ∧
      (entry.status = .skipped_non_uk ↔
        ∃ n, normalizePhone bk.phone_number = some n ∧
          isUKNumber n.e164 bk.phone_number = false) ∧
      (entry.status = .skipped_opted_out ↔
        ∃ n, normalizePhone bk.phone_number = some n ∧
          isUKNumber n.e164 bk.phone_number = true ∧ isOptedOut db n.e164 = true) ∧
      ((entry.status = .sent ∨ entry.status = .failed) ↔
        ∃ n, normalizePhone bk.phone_number = some n ∧
          isUKNumber n.e164 bk.phone_number = true ∧ isOptedOut db n.e164 = false)) := by
  cases hnorm : normalizePhone bk.phone_number with
  | none =>
    simp only [hiveboxStep, hnorm]
    refine ⟨by omega, by simp [hnorm], by simp [hnorm], by simp [hnorm], by simp [hnorm],
      ⟨hiveboxLogEntry bk (jsOr bk.phone_number "unknown") .skipped_invalid_phone
        (some "Invalid phone number format"), _, rfl, ?_, ?_, ?_, ?_, ?_⟩⟩
    · simp [isLogSmsEvent]
    · simp [hiveboxLogEntry, hnorm]
    · simp [hiveboxLogEntry, hnorm]
    · simp [hiveboxLogEntry, hnorm]
    · simp [hiveboxLogEntry, hnorm]
  | some n =>
    by_cases huk : isUKNumber n.e164 bk.phone_number = true
    · by_cases hopt : isOptedOut db n.e164 = true
      · simp only [hiveboxStep, hnorm, huk, hopt]
        refine ⟨by (simp; omega), by simp [hnorm], by simp [hnorm, huk], by simp [hnorm, huk, hopt],
          by simp [hnorm, huk, hopt],
          ⟨hiveboxLogEntry bk n.e164 .skipped_opted_out none, _, rfl, ?_, ?_, ?_, ?_, ?_⟩⟩
        · simp [isLogSmsEvent]
        · simp [hiveboxLogEntry, hnorm]
        · simp [hiveboxLogEntry, hnorm, huk]
        · simp [hiveboxLogEntry, hnorm, huk, hopt]
        · simp [hiveboxLogEntry, hnorm, huk, hopt]
      · cases hdry : isDryRun with
        | true =>
          simp only [hiveboxStep, hnorm, huk, hopt, hdry]
          refine ⟨by (simp; omega), by simp [hnorm], by simp [hnorm, huk], by simp [hnorm, huk, hopt],
            by (simp [hnorm, huk, hopt]; omega),
            ⟨hiveboxLogEntry bk n.e164 .sent none, _, rfl, ?_, ?_, ?_, ?_, ?_⟩⟩
          · simp [isLogSmsEvent]
          · simp [hiveboxLogEntry, hnorm]
          · simp [hiveboxLogEntry, hnorm, huk]
          · simp [hiveboxLogEntry, hnorm, huk, hopt]
          · simp [hiveboxLogEntry, hnorm, huk, hopt]
        | false =>
          rcases hs : sendSMS cfgDryRun nowMs (transport i) n.e164
              (createHiveboxMessage bk.first_name) with ⟨r, sevs⟩
          have hsevs : sevs.filter isLogSmsEvent = [] := by
            have := sendSMS_no_logSms cfgDryRun nowMs (transport i) n.e164
              (createHiveboxMessage bk.first_name)
            rw [hs] at this
            exact this
          cases r with
          | ok v =>
            simp only [hiveboxStep, hnorm, huk, hopt, hdry, hs]
            refine ⟨by (simp; omega), by simp [hnorm], by simp [hnorm, huk], by simp [hnorm, huk, hopt],
              by (simp [hnorm, huk, hopt]; omega),
              ⟨hiveboxLogEntry bk n.e164 .sent none, sevs ++ [.logSms
                (hiveboxLogEntry bk n.e164 .sent none)], by simp, ?_, ?_, ?_, ?_, ?_⟩⟩
            · simp [List.filter_append, hsevs, isLogSmsEvent]
            · simp [hiveboxLogEntry, hnorm]
            · simp [hiveboxLogEntry, hnorm, huk]
            · simp [hiveboxLogEntry, hnorm, huk, hopt]
            · simp [hiveboxLogEntry, hnorm, huk, hopt]
          | error e =>
            simp only [hiveboxStep, hnorm, huk, hopt, hdry, hs]
            refine ⟨by (simp; omega), by simp [hnorm], by simp [hnorm, huk], by simp [hnorm, huk, hopt],
              by (simp [hnorm, huk, hopt]; omega),
              ⟨hiveboxLogEntry bk n.e164 .failed (some (jsErrorMessage e)), sevs ++ [.logSms
                (hiveboxLogEntry bk n.e164 .failed (some (jsErrorMessage e)))],
                by simp, ?_, ?_, ?_, ?_, ?_⟩⟩
            · simp [List.filter_append, hsevs, isLogSmsEvent]
            · simp [hiveboxLogEntry, hnorm]
            · simp [hiveboxLogEntry, hnorm, huk]
            · simp [hiveboxLogEntry, hnorm, huk, hopt]
            · simp [hiveboxLogEntry, hnorm, huk, hopt]
    · simp only [hiveboxStep, hnorm, huk]
      have hukf : isUKNumber n.e164 bk.phone_number = false := by
        simpa using huk
      refine ⟨by (simp [hukf]; omega), by simp [hnorm], by simp [hnorm, hukf], by simp [hnorm, hukf],
        by simp [hnorm, hukf],
        ⟨hiveboxLogEntry bk n.e164 .skipped_non_uk (some "Non-UK phone number"), _, rfl,
          ?_, ?_, ?_, ?_, ?_⟩⟩
      · simp [isLogSmsEvent]
      · simp [hiveboxLogEntry, hnorm]
      · simp [hiveboxLogEntry, hnorm, hukf]
      · simp [hiveboxLogEntry, hnorm, hukf]
      · simp [hiveboxLogEntry, hnorm, hukf]

/-- Claim C2: in both pipeline runs the per-candidate eligibility checks are
applied in a fixed order and the first failing check determines the
candidate's single skip reason, short-circuiting all later checks. Daily
(`runJob`): order no-phone, invalid-phone, non-UK, opted-out, no-review-link;
the filter outcome is one constructor, and each skip outcome holds exactly
when its check is the first to fail. Hourly (`runHiveboxReminderJob`): order
invalid-phone, non-UK, opted-out; each loop iteration bumps exactly one stats
bucket, each skip bucket exactly when its check is the first to fail, reaches
the send path exactly when every check passes, and writes exactly one
`sms_send_log` row whose status names that single reason. -/
theorem filter_first_failure_single_reason :
    (∀ (db : OptOutDb) (map : ReviewLinksMap) (r1 r2 : Nat) (b : BookingRow),
      (classifyBooking db map r1 r2 b = .skipNoPhone ↔ jsTruthy b.phone_number = false) ∧
      (classifyBooking db map r1 r2 b = .skipInvalidPhone ↔
        jsTruthy b.phone_number = true ∧ normalizePhone b.phone_number = none) ∧
      (classifyBooking db map r1 r2 b = .skipNonUK ↔
        jsTruthy b.phone_number = true ∧ ∃ n, normalizePhone b.phone_number = some n ∧
          ukPhoneCheck b n = false) ∧
      (classifyBooking db map r1 r2 b = .skipOptedOut ↔
        jsTruthy b.phone_number = true ∧ ∃ n, normalizePhone b.phone_number = some n ∧
          ukPhoneCheck b n = true ∧ isOptedOut db n.e164 = true) ∧
      (classifyBooking db map r1 r2 b = .skipNoReviewLink ↔
        jsTruthy b.phone_number = true ∧ ∃ n, normalizePhone b.phone_number = some n ∧
          ukPhoneCheck b n = true ∧ isOptedOut db n.e164 = false ∧
          resolveReviewUrl map r1 r2 b = none)) ∧
    (∀ (db : OptOutDb) (cfgDryRun isDryRun : Bool) (nowMs : Nat)
        (transport : Nat → Except SmsError String) (stats : HiveboxJobStats)
        (evs : List Event) (i : Nat) (bk : HiveboxBookingRow),
      ((hiveboxStep db cfgDryRun isDryRun nowMs transport (stats, evs) (i, bk)).1.skippedInvalidPhone +
          (hiveboxStep db cfgDryRun isDryRun nowMs transport (stats, evs) (i, bk)).1.skippedNonUK +
          (hiveboxStep db cfgDryRun isDryRun nowMs transport (stats, evs) (i, bk)).1.skippedOptedOut +
          (hiveboxStep db cfgDryRun isDryRun nowMs transport (stats, evs) (i, bk)).1.sent +
          (hiveboxStep db cfgDryRun isDryRun nowMs transport (stats, evs) (i, bk)).1.failed =
        stats.skippedInvalidPhone + stats.skippedNonUK + stats.skippedOptedOut +
          stats.sent + stats.failed + 1) ∧
      ((hiveboxStep db cfgDryRun isDryRun nowMs transport (stats, evs) (i, bk)).1.skippedInvalidPhone =
          stats.skippedInvalidPhone + 1 ↔
        normalizePhone bk.phone_number = none) ∧
      ((hiveboxStep db cfgDryRun isDryRun nowMs transport (stats, evs) (i, bk)).1.skippedNonUK =
          stats.skippedNonUK + 1 ↔
        ∃ n, normalizePhone bk.phone_number = some n ∧
          isUKNumber n.e164 bk.phone_number = false) ∧
      ((hiveboxStep db cfgDryRun isDryRun nowMs transport (stats, evs) (i, bk)).1.skippedOptedOut =
          stats.skippedOptedOut + 1 ↔
        ∃ n, normalizePhone bk.phone_number = some n ∧
          isUKNumber n.e164 bk.phone_number = true ∧ isOptedOut db n.e164 = true) ∧
      ((hiveboxStep db cfgDryRun isDryRun nowMs transport (stats, evs) (i, bk)).1.sent +
          (hiveboxStep db cfgDryRun isDryRun nowMs transport (stats, evs) (i, bk)).1.failed =
          stats.sent + stats.failed + 1 ↔
        ∃ n, normalizePhone bk.phone_number = some n ∧
          isUKNumber n.e164 bk.phone_number = true ∧ isOptedOut db n.e164 = false) ∧
      (∃ entry w,
        (hiveboxStep db cfgDryRun isDryRun nowMs transport (stats, evs) (i, bk)).2 = evs ++ w ∧
        w.filter isLogSmsEvent = [.logSms entry] ∧
        (entry.status = .skipped_invalid_phone ↔ normalizePhone bk.phone_number = none) ∧
        (entry.status = .skipped_non_uk ↔
          ∃ n, normalizePhone bk.phone_number = some n ∧
            isUKNumber n.e164 bk.phone_number = false) ∧
        (entry.status = .skipped_opted_out ↔
          ∃ n, normalizePhone bk.phone_number = some n ∧
            isUKNumber n.e164 bk.phone_number = true ∧ isOptedOut db n.e164 = true) ∧
        ((entry.status = .sent ∨ entry.status = .failed) ↔
          ∃ n, normalizePhone bk.phone_number = some n ∧
            isUKNumber n.e164 bk.phone_number = true ∧ isOptedOut db n.e164 = false))) :=
  ⟨classifyBooking_cases, hiveboxStep_cases⟩

theorem filter_fold_invariant (db : OptOutDb) (map : ReviewLinksMap)
    (rands : Nat → Nat × Nat) (l : List (Nat × BookingRow)) :
    ∀ (s : JobStats) (es : List EligibleBooking),
      (l.foldl (filterStep db map rands) (s, es)).1.eligible +
        skipTotal (l.foldl (filterStep db map rands) (s, es)).1 =
        s.eligible + skipTotal s + l.length ∧
      (l.foldl (filterStep db map rands) (s, es)).2.length + s.eligible =
        es.length + (l.foldl (filterStep db map rands) (s, es)).1.eligible ∧
      (l.foldl (filterStep db map rands) (s, es)).1.found = s.found ∧
      (l.foldl (filterStep db map rands) (s, es)).1.sent = s.sent ∧
      (l.foldl (filterStep db map rands) (s, es)).1.failed = s.failed := by
  induction l with
  | nil => intro s es; simp
  | cons ib t ih =>
    intro s es
    obtain ⟨i, b⟩ := ib
    simp only [List.foldl_cons]
    obtain ⟨k1, k2, k3, k4, k5⟩ :=
      ih (filterStep db map rands (s, es) (i, b)).1 (filterStep db map rands (s, es) (i, b)).2
    rw [Prod.mk.eta] at k1 k2 k3 k4 k5
    cases hcl : classifyBooking db map (rands i).1 (rands i).2 b <;>
      simp only [filterStep, hcl] at k1 k2 k3 k4 k5 ⊢ <;>
      refine ⟨?_, ?_, ?_, ?_, ?_⟩ <;> simp [skipTotal] at k1 k2 k3 k4 k5 ⊢ <;> omega

theorem send_fold_invariant (cfgDryRun : Bool) (nowMs : Nat)
    (transport : Nat → Except SmsError String) (l : List (Nat × EligibleBooking)) :
    ∀ (acc : Nat × Nat × List SendRecord × List Event),
      (l.foldl (sendStep cfgDryRun nowMs transport) acc).1 +
        (l.foldl (sendStep cfgDryRun nowMs transport) acc).2.1 =
        acc.1 + acc.2.1 + l.length ∧
      (l.foldl (sendStep cfgDryRun nowMs transport) acc).2.2.1.length =
        acc.2.2.1.length + l.length := by
  induction l with
  | nil => intro acc; simp
  | cons ib t ih =>
    intro acc
    obtain ⟨i, eb⟩ := ib
    simp only [List.foldl_cons]
    obtain ⟨k1, k2⟩ := ih (sendStep cfgDryRun nowMs transport acc (i, eb))
    obtain ⟨sent, failed, recs, evs⟩ := acc
    rcases hs : sendSMS cfgDryRun nowMs (transport i)
        eb.phoneE164 (SMS_TEMPLATE eb.booking.first_name eb.reviewUrl) with ⟨r, sevs⟩
    cases r <;>
      simp only [sendStep, hs] at k1 k2 ⊢ <;> simp at k1 k2 ⊢ <;> omega

theorem hivebox_fold_invariant (db : OptOutDb) (cfgDryRun isDryRun : Bool) (nowMs : Nat)
    (transport : Nat → Except SmsError String) (l : List (Nat × HiveboxBookingRow)) :
    ∀ (acc : HiveboxJobStats × List Event),
      hiveboxHandled (l.foldl (hiveboxStep db cfgDryRun isDryRun nowMs transport) acc).1 =
        hiveboxHandled acc.1 + l.length ∧
      (l.foldl (hiveboxStep db cfgDryRun isDryRun nowMs transport) acc).1.fetched =
        acc.1.fetched := by
  induction l with
  | nil => intro acc; simp
  | cons ib t ih =>
    intro acc
    obtain ⟨i, bk⟩ := ib
    simp only [List.foldl_cons]
    obtain ⟨k1, k2⟩ := ih (hiveboxStep db cfgDryRun isDryRun nowMs transport acc (i, bk))
    obtain ⟨stats, evs⟩ := acc
    cases hnorm : normalizePhone bk.phone_number with
    | none =>
      simp only [hiveboxStep, hnorm] at k1 k2 ⊢
      simp [hiveboxHandled] at k1 k2 ⊢
      omega
    | some n =>
      by_cases huk : isUKNumber n.e164 bk.phone_number = true
      · by_cases hopt : isOptedOut db n.e164 = true
        · simp only [hiveboxStep, hnorm, huk, hopt] at k1 k2 ⊢
          simp [hiveboxHandled] at k1 k2 ⊢
          omega
        · cases hdry : isDryRun with
          | true =>
            simp only [hiveboxStep, hnorm, huk, hopt, hdry] at k1 k2 ⊢
            simp [hiveboxHandled] at k1 k2 ⊢
            omega
          | false =>
            rcases hs : sendSMS cfgDryRun nowMs (transport i) n.e164
                (createHiveboxMessage bk.first_name) with ⟨r, sevs⟩
            cases r <;>
              · simp only [hiveboxStep, hnorm, huk, hopt, hdry, hs] at k1 k2 ⊢
                simp [hiveboxHandled] at k1 k2 ⊢
                omega
      · simp only [hiveboxStep, hnorm, huk] at k1 k2 ⊢
        simp [hiveboxHandled] at k1 k2 ⊢
        omega

/-- Claim C10: counts are conserved. Daily job: found equals the number of
fetched bookings, found equals eligible plus the five skip counters, and
eligible equals sent plus failed. Hourly job: fetched equals the number of
fetched bookings and equals sent plus failed plus the three skip counters. -/
theorem runStats_conserved
    (db : OptOutDb) (map : ReviewLinksMap) (rands : Nat → Nat × Nat)
    (transport : Nat → Except SmsError String) (cfgDryRun : Bool) (nowMs : Nat)
    (bookings : List BookingRow)
    (db2 : OptOutDb) (cfg2 isDry2 : Bool) (jobRunId : Nat) (startedAt finishedAt : String)
    (nowMs2 : Nat) (hbBookings : List HiveboxBookingRow)
    (transport2 : Nat → Except SmsError String) :
    ((runJob db map rands transport cfgDryRun nowMs bookings).1.found = bookings.length ∧
     (runJob db map rands transport cfgDryRun nowMs bookings).1.found =
       (runJob db map rands transport cfgDryRun nowMs bookings).1.eligible +
       (runJob db map rands transport cfgDryRun nowMs bookings).1.skippedNoPhone +
       (runJob db map rands transport cfgDryRun nowMs bookings).1.skippedInvalidPhone +
       (runJob db map rands transport cfgDryRun nowMs bookings).1.skippedNonUK +
       (runJob db map rands transport cfgDryRun nowMs bookings).1.skippedOptedOut +
       (runJob db map rands transport cfgDryRun nowMs bookings).1.skippedNoReviewLink ∧
     (runJob db map rands transport cfgDryRun nowMs bookings).1.eligible =
       (runJob db map rands transport cfgDryRun nowMs bookings).1.sent +
       (runJob db map rands transport cfgDryRun nowMs bookings).1.failed) ∧
    (∀ hst, (runHiveboxReminderJob db2 cfg2 jobRunId startedAt finishedAt nowMs2
        (.ok hbBookings) transport2 isDry2).1 = .ok hst →
      hst.fetched = hbBookings.length ∧
      hst.fetched = hst.sent + hst.failed + hst.skippedOptedOut +
        hst.skippedInvalidPhone + hst.skippedNonUK) := by
  constructor
  · by_cases hlen : bookings.length = 0
    · simp [runJob, hlen]
    · simp only [runJob, hlen, if_false]
      rcases hf : runFilterPass db map rands { found := bookings.length } bookings
        with ⟨stats2, elig⟩
      rcases hsend : runSendPass cfgDryRun nowMs transport elig
        with ⟨sent, failed, recs, evs⟩
      obtain ⟨k1, k2, k3, k4, k5⟩ :=
        filter_fold_invariant db map rands bookings.enum
          { found := bookings.length } []
      rw [show bookings.enum.foldl (filterStep db map rands)
            ({ found := bookings.length }, []) = (stats2, elig) from hf] at k1 k2 k3 k4 k5
      obtain ⟨m1, m2⟩ :=
        send_fold_invariant cfgDryRun nowMs transport elig.enum (0, 0, [], [])
      rw [show elig.enum.foldl (sendStep cfgDryRun nowMs transport) (0, 0, [], []) =
            (sent, failed, recs, evs) from hsend] at m1 m2
      simp only [hf, hsend]
      simp [skipTotal, List.enum_length] at k1 k2 k3 k4 k5 m1 m2 ⊢
      omega
  · intro hst h
    by_cases hempty : hbBookings.isEmpty
    · simp only [runHiveboxReminderJob, hempty, if_true] at h
      have : hbBookings = [] := List.isEmpty_iff.mp hempty
      subst this
      cases h
      simp
    · simp only [runHiveboxReminderJob, hempty, if_false] at h
      obtain ⟨k1, k2⟩ :=
        hivebox_fold_invariant db2 cfg2 isDry2 nowMs2 transport2 hbBookings.enum
          ({ fetched := hbBookings.length },
           [Event.createSummary
              { feature := hiveboxFeatureName, started_at := startedAt,
                finished_at := none, fetched_count := 0, sent_count := 0,
                skipped_count := 0, failed_count := 0, error := none }] ++ [Event.fetch] ++
            updateJobRunSummaryEvents jobRunId { fetched_count := some hbBookings.length })
      cases h
      simp [hiveboxHandled, List.enum_length] at k1 k2 ⊢
      omega

theorem send_fold_records (cfgDryRun : Bool) (nowMs : Nat)
    (transport : Nat → Except SmsError String) (l : List (Nat × EligibleBooking)) :
    ∀ acc, (l.foldl (sendStep cfgDryRun nowMs transport) acc).2.2.1 =
      acc.2.2.1 ++ l.map (fun ib =>
        ⟨ib.2.booking.booking_id, ib.2.phoneE164, sendOutcome cfgDryRun nowMs transport ib⟩) := by
  induction l with
  | nil => intro acc; simp
  | cons ib t ih =>
    intro acc
    obtain ⟨i, eb⟩ := ib
    obtain ⟨sent, failed, recs, evs⟩ := acc
    simp only [List.foldl_cons]
    rw [ih]
    rcases hs : sendSMS cfgDryRun nowMs (transport i)
        eb.phoneE164 (SMS_TEMPLATE eb.booking.first_name eb.reviewUrl) with ⟨r, sevs⟩
    cases r <;> simp [sendStep, hs, sendOutcome, Except.map, List.map_cons]

theorem send_fold_counts (cfgDryRun : Bool) (nowMs : Nat)
    (transport : Nat → Except SmsError String) (l : List (Nat × EligibleBooking)) :
    ∀ acc, (l.foldl (sendStep cfgDryRun nowMs transport) acc).1 =
      acc.1 + l.countP (fun ib => exceptOk (sendOutcome cfgDryRun nowMs transport ib)) ∧
    (l.foldl (sendStep cfgDryRun nowMs transport) acc).2.1 =
      acc.2.1 + l.countP (fun ib => !exceptOk (sendOutcome cfgDryRun nowMs transport ib)) := by
  induction l with
  | nil => intro acc; simp
  | cons ib t ih =>
    intro acc
    obtain ⟨i, eb⟩ := ib
    obtain ⟨sent, failed, recs, evs⟩ := acc
    simp only [List.foldl_cons]
    obtain ⟨h1, h2⟩ := ih (sendStep cfgDryRun nowMs transport (sent, failed, recs, evs) (i, eb))
    rcases hs : sendSMS cfgDryRun nowMs (transport i)
        eb.phoneE164 (SMS_TEMPLATE eb.booking.first_name eb.reviewUrl) with ⟨r, sevs⟩
    cases r <;>
      · simp [sendStep, hs, sendOutcome, Except.map, exceptOk, List.countP_cons] at h1 h2 ⊢
        omega

/-- Claim C3: the sending loop records exactly one outcome per eligible
candidate in order — the provider id on success or the caught error with its
detail on failure — counts sent/failed accordingly, processes every candidate
regardless of earlier failures, and (hourly job) a per-candidate send error
never makes the run itself fail. -/
theorem sendLoop_failure_contained
    (cfgDryRun : Bool) (nowMs : Nat) (transport : Nat → Except SmsError String)
    (eligible : List EligibleBooking)
    (db2 : OptOutDb) (cfg2 isDry2 : Bool) (jobRunId : Nat) (startedAt finishedAt : String)
    (nowMs2 : Nat) (hbBookings : List HiveboxBookingRow)
    (transport2 : Nat → Except SmsError String) :
    ((runSendPass cfgDryRun nowMs transport eligible).2.2.1.length = eligible.length ∧
     (∀ i (hi : i < eligible.length),
        (runSendPass cfgDryRun nowMs transport eligible).2.2.1[i]? =
          some ⟨eligible[i].booking.booking_id, eligible[i].phoneE164,
                sendOutcome cfgDryRun nowMs transport (i, eligible[i])⟩) ∧
     (runSendPass cfgDryRun nowMs transport eligible).1 =
       eligible.enum.countP (fun ib => exceptOk (sendOutcome cfgDryRun nowMs transport ib)) ∧
     (runSendPass cfgDryRun nowMs transport eligible).2.1 =
       eligible.enum.countP (fun ib => !exceptOk (sendOutcome cfgDryRun nowMs transport ib))) ∧
    (∃ hst, (runHiveboxReminderJob db2 cfg2 jobRunId startedAt finishedAt nowMs2
        (.ok hbBookings) transport2 isDry2).1 = .ok hst) := by
  have hrec := send_fold_records cfgDryRun nowMs transport eligible.enum (0, 0, [], [])
  have hcnt := send_fold_counts cfgDryRun nowMs transport eligible.enum (0, 0, [], [])
  refine ⟨⟨?_, ?_, ?_, ?_⟩, ?_⟩
  · simp only [runSendPass, hrec]
    simp [List.enum_length]
  · intro i hi
    simp only [runSendPass, hrec, List.nil_append]
    rw [List.getElem?_map]
    rw [List.getElem?_enum]
    rw [List.getElem?_eq_getElem hi]
    rfl
  · simpa [runSendPass] using (hcnt).1
  · simpa [runSendPass] using (hcnt).2
  · by_cases hempty : hbBookings.isEmpty
    · simp only [runHiveboxReminderJob, hempty, if_true]
      exact ⟨_, rfl⟩
    · simp only [runHiveboxReminderJob, hempty, if_false]
      exact ⟨_, rfl⟩

theorem hiveboxStep_events (db : OptOutDb) (cfgDryRun isDryRun : Bool) (nowMs : Nat)
    (transport : Nat → Except SmsError String) (stats : HiveboxJobStats)
    (evs : List Event) (i : Nat) (bk : HiveboxBookingRow) :
    ∃ w, (hiveboxStep db cfgDryRun isDryRun nowMs transport (stats, evs) (i, bk)).2 =
      evs ++ w := by
  cases hnorm : normalizePhone bk.phone_number with
  | none =>
    simp only [hiveboxStep, hnorm]
    exact ⟨_, rfl⟩
  | some n =>
    by_cases huk : isUKNumber n.e164 bk.phone_number = true
    · by_cases hopt : isOptedOut db n.e164 = true
      · simp only [hiveboxStep, hnorm, huk, hopt]
        simp
      · cases hdry : isDryRun with
        | true =>
          simp only [hiveboxStep, hnorm, huk, hopt, hdry]
          simp
        | false =>
          rcases hs : sendSMS cfgDryRun nowMs (transport i) n.e164
              (createHiveboxMessage bk.first_name) with ⟨r, sevs⟩
          cases r <;>
            · simp [hiveboxStep, hnorm, huk, hopt, hdry, hs]
    · simp only [hiveboxStep, hnorm, huk]
      simp

theorem hivebox_fold_events_extend (db : OptOutDb) (cfgDryRun isDryRun : Bool)
    (nowMs : Nat) (transport : Nat → Except SmsError String)
    (l : List (Nat × HiveboxBookingRow)) :
    ∀ acc, ∃ t, (l.foldl (hiveboxStep db cfgDryRun isDryRun nowMs transport) acc).2 =
      acc.2 ++ t := by
  induction l with
  | nil => intro acc; exact ⟨[], by simp⟩
  | cons ib t ih =>
    intro acc
    obtain ⟨i, bk⟩ := ib
    obtain ⟨stats, evs⟩ := acc
    simp only [List.foldl_cons]
    obtain ⟨t2, ht2⟩ := ih (hiveboxStep db cfgDryRun isDryRun nowMs transport (stats, evs) (i, bk))
    obtain ⟨w, hw⟩ := hiveboxStep_events db cfgDryRun isDryRun nowMs transport stats evs i bk
    rw [ht2, hw, List.append_assoc]
    exact ⟨_, rfl⟩

theorem send_fold_no_summary (cfgDryRun : Bool) (nowMs : Nat)
    (transport : Nat → Except SmsError String) (l : List (Nat × EligibleBooking)) :
    ∀ acc, ((l.foldl (sendStep cfgDryRun nowMs transport) acc).2.2.2).filter
      isCreateSummaryEvent = acc.2.2.2.filter isCreateSummaryEvent := by
  induction l with
  | nil => intro acc; rfl
  | cons ib t ih =>
    intro acc
    obtain ⟨i, eb⟩ := ib
    obtain ⟨sent, failed, recs, evs⟩ := acc
    simp only [List.foldl_cons]
    rw [ih]
    by_cases hdry : cfgDryRun = true
    · simp [sendStep, sendSMS, hdry]
    · simp only [Bool.not_eq_true] at hdry
      cases htr : transport i with
      | ok id => simp [sendStep, sendSMS, hdry, htr, isCreateSummaryEvent]
      | error e => simp [sendStep, sendSMS, hdry, htr, isCreateSummaryEvent]

theorem hivebox_summary_lifecycle_draft
    (db : OptOutDb) (cfgDryRun : Bool) (jobRunId : Nat) (startedAt finishedAt : String)
    (nowMs : Nat) (fetchResult : Except String (List HiveboxBookingRow))
    (transport : Nat → Except SmsError String) (isDryRun : Bool) :
    ((runHiveboxReminderJob db cfgDryRun jobRunId startedAt finishedAt nowMs
        fetchResult transport isDryRun).2[0]? = some (.createSummary
        { feature := hiveboxFeatureName, started_at := startedAt, finished_at := none,
          fetched_count := 0, sent_count := 0, skipped_count := 0, failed_count := 0,
          error := none })) ∧
    ((runHiveboxReminderJob db cfgDryRun jobRunId startedAt finishedAt nowMs
        fetchResult transport isDryRun).2[1]? = some .fetch) ∧
    (∀ e, fetchResult = .error e →
      (runHiveboxReminderJob db cfgDryRun jobRunId startedAt finishedAt nowMs
          fetchResult transport isDryRun).1 = .error e ∧
      (runHiveboxReminderJob db cfgDryRun jobRunId startedAt finishedAt nowMs
          fetchResult transport isDryRun).2 =
        [.createSummary
          { feature := hiveboxFeatureName, started_at := startedAt, finished_at := none,
            fetched_count := 0, sent_count := 0, skipped_count := 0, failed_count := 0,
            error := none },
         .fetch,
         .updateSummary jobRunId
          { finished_at := some (some finishedAt), error := some (some e) }]) := by
  refine ⟨?_, ?_, ?_⟩
  · cases fetchResult with
    | error e => simp [runHiveboxReminderJob, updateJobRunSummaryEvents]
    | ok bks =>
      by_cases hempty : bks.isEmpty
      · simp [runHiveboxReminderJob, hempty, updateJobRunSummaryEvents]
      · simp only [runHiveboxReminderJob, hempty, if_false]
        obtain ⟨t, ht⟩ := hivebox_fold_events_extend db cfgDryRun isDryRun nowMs transport
          bks.enum ({ fetched := bks.length },
            [Event.createSummary
              { feature := hiveboxFeatureName, started_at := startedAt, finished_at := none,
                fetched_count := 0, sent_count := 0, skipped_count := 0, failed_count := 0,
                error := none }] ++ [Event.fetch] ++
              updateJobRunSummaryEvents jobRunId { fetched_count := some bks.length })
        simp only [ht]
        simp [updateJobRunSummaryEvents]
  · cases fetchResult with
    | error e => simp [runHiveboxReminderJob, updateJobRunSummaryEvents]
    | ok bks =>
      by_cases hempty : bks.isEmpty
      · simp [runHiveboxReminderJob, hempty, updateJobRunSummaryEvents]
      · simp only [runHiveboxReminderJob, hempty, if_false]
        obtain ⟨t, ht⟩ := hivebox_fold_events_extend db cfgDryRun isDryRun nowMs transport
          bks.enum ({ fetched := bks.length },
            [Event.createSummary
              { feature := hiveboxFeatureName, started_at := startedAt, finished_at := none,
                fetched_count := 0, sent_count := 0, skipped_count := 0, failed_count := 0,
                error := none }] ++ [Event.fetch] ++
              updateJobRunSummaryEvents jobRunId { fetched_count := some bks.length })
        simp only [ht]
        simp [updateJobRunSummaryEvents]
  · intro e hfe
    subst hfe
    constructor
    · rfl
    · simp [runHiveboxReminderJob, updateJobRunSummaryEvents]

theorem runJob_writes_no_summary (db : OptOutDb) (map : ReviewLinksMap)
    (rands : Nat → Nat × Nat) (transport : Nat → Except SmsError String)
    (cfgDryRun : Bool) (nowMs : Nat) (bookings : List BookingRow) :
    ((runJob db map rands transport cfgDryRun nowMs bookings).2.2).filter
      isCreateSummaryEvent = [] := by
  by_cases hlen : bookings.length = 0
  · simp [runJob, hlen, isCreateSummaryEvent]
  · simp only [runJob, hlen, if_false]
    rcases hf : runFilterPass db map rands { found := bookings.length } bookings
      with ⟨stats2, elig⟩
    have hsend := send_fold_no_summary cfgDryRun nowMs transport elig.enum (0, 0, [], [])
    simp only [runSendPass] at *
    simp [hf, List.filter_append, hsend, isCreateSummaryEvent]

/-- Claim C4 counterexample: a concrete daily run that fetched one candidate
and sent one SMS writes no Job Run Summary row at any point — refuting the
claim that every pipeline run (daily included) creates a summary row before
fetching. -/
theorem runJob_daily_no_summary_counterexample :
    ((runJob [] [("london", ["u1"])] (fun _ => (0, 0)) (fun _ => .ok "id1") false 5
        [{ booking_id := 1, stashpoint_name := "S", city := some "London",
           phone_number := some "+447911123456", first_name := some "A",
           last_name := none, pickup := none }]).1.found = 1) ∧
    ((runJob [] [("london", ["u1"])] (fun _ => (0, 0)) (fun _ => .ok "id1") false 5
        [{ booking_id := 1, stashpoint_name := "S", city := some "London",
           phone_number := some "+447911123456", first_name := some "A",
           last_name := none, pickup := none }]).1.sent = 1) ∧
    ((runJob [] [("london", ["u1"])] (fun _ => (0, 0)) (fun _ => .ok "id1") false 5
        [{ booking_id := 1, stashpoint_name := "S", city := some "London",
           phone_number := some "+447911123456", first_name := some "A",
           last_name := none, pickup := none }]).2.2.filter isCreateSummaryEvent = []) := by
  refine ⟨by decide, by decide, by decide⟩

theorem hivebox_dry_live_cons (db : OptOutDb) (cfgA : Bool) (nowMs : Nat)
    (tr1 tr2 : Nat → Except SmsError String) (t : List (Nat × HiveboxBookingRow))
    (ih : ∀ (stats : HiveboxJobStats) (evs1 evs2 : List Event), ∃ w1 w2,
      (t.foldl (hiveboxStep db cfgA true nowMs tr1) (stats, evs1)).2 = evs1 ++ w1 ∧
      (t.foldl (hiveboxStep db false false nowMs tr2) (stats, evs2)).2 = evs2 ++ w2 ∧
      w1.filter isLogSmsEvent = w2.filter isLogSmsEvent ∧
      w1.filter isTransportCallEvent = [] ∧
      (t.foldl (hiveboxStep db cfgA true nowMs tr1) (stats, evs1)).1 =
        (t.foldl (hiveboxStep db false false nowMs tr2) (stats, evs2)).1)
    (stats stats2 : HiveboxJobStats) (evs1 evs2 : List Event) (i : Nat)
    (bk : HiveboxBookingRow) (x1s x2s : List Event)
    (hstep1 : hiveboxStep db cfgA true nowMs tr1 (stats, evs1) (i, bk) =
      (stats2, evs1 ++ x1s))
    (hstep2 : hiveboxStep db false false nowMs tr2 (stats, evs2) (i, bk) =
      (stats2, evs2 ++ x2s))
    (hlog : x1s.filter isLogSmsEvent = x2s.filter isLogSmsEvent)
    (htc : x1s.filter isTransportCallEvent = []) :
    ∃ w1 w2,
      (t.foldl (hiveboxStep db cfgA true nowMs tr1)
        (hiveboxStep db cfgA true nowMs tr1 (stats, evs1) (i, bk))).2 = evs1 ++ w1 ∧
      (t.foldl (hiveboxStep db false false nowMs tr2)
        (hiveboxStep db false false nowMs tr2 (stats, evs2) (i, bk))).2 = evs2 ++ w2 ∧
      w1.filter isLogSmsEvent = w2.filter isLogSmsEvent ∧
      w1.filter isTransportCallEvent = [] ∧
      (t.foldl (hiveboxStep db cfgA true nowMs tr1)
        (hiveboxStep db cfgA true nowMs tr1 (stats, evs1) (i, bk))).1 =
      (t.foldl (hiveboxStep db false false nowMs tr2)
        (hiveboxStep db false false nowMs tr2 (stats, evs2) (i, bk))).1 := by
  rw [hstep1, hstep2]
  obtain ⟨w1, w2, h1, h2, h3, h4, h5⟩ := ih stats2 (evs1 ++ x1s) (evs2 ++ x2s)
  refine ⟨x1s ++ w1, x2s ++ w2, ?_, ?_, ?_, ?_, h5⟩
  · rw [h1, List.append_assoc]
  · rw [h2, List.append_assoc]
  · simp [List.filter_append, h3, hlog]
  · simp [List.filter_append, h4, htc]

theorem hivebox_dry_live_fold (db : OptOutDb) (cfgA : Bool) (nowMs : Nat)
    (tr1 tr2 : Nat → Except SmsError String)
    (htr2 : ∀ i, ∃ id, tr2 i = .ok id)
    (l : List (Nat × HiveboxBookingRow)) :
    ∀ stats evs1 evs2, ∃ w1 w2,
      (l.foldl (hiveboxStep db cfgA true nowMs tr1) (stats, evs1)).2 = evs1 ++ w1 ∧
      (l.foldl (hiveboxStep db false false nowMs tr2) (stats, evs2)).2 = evs2 ++ w2 ∧
      w1.filter isLogSmsEvent = w2.filter isLogSmsEvent ∧
      w1.filter isTransportCallEvent = [] ∧
      (l.foldl (hiveboxStep db cfgA true nowMs tr1) (stats, evs1)).1 =
        (l.foldl (hiveboxStep db false false nowMs tr2) (stats, evs2)).1 := by
  induction l with
  | nil =>
    intro stats evs1 evs2
    exact ⟨[], [], by simp, by simp, rfl, rfl, rfl⟩
  | cons ib t ih =>
    intro stats evs1 evs2
    obtain ⟨i, bk⟩ := ib
    simp only [List.foldl_cons]
    cases hnorm : normalizePhone bk.phone_number with
    | none =>
      exact hivebox_dry_live_cons db cfgA nowMs tr1 tr2 t ih stats
        { stats with skippedInvalidPhone := stats.skippedInvalidPhone + 1 } evs1 evs2 i bk
        [.logSms (hiveboxLogEntry bk (jsOr bk.phone_number "unknown")
          .skipped_invalid_phone (some "Invalid phone number format"))]
        [.logSms (hiveboxLogEntry bk (jsOr bk.phone_number "unknown")
          .skipped_invalid_phone (some "Invalid phone number format"))]
        (by simp only [hiveboxStep, hnorm]) (by simp only [hiveboxStep, hnorm])
        rfl (by simp [isTransportCallEvent])
    | some n =>
      by_cases huk : isUKNumber n.e164 bk.phone_number = true
      · by_cases hopt : isOptedOut db n.e164 = true
        · exact hivebox_dry_live_cons db cfgA nowMs tr1 tr2 t ih stats
            { stats with skippedOptedOut := stats.skippedOptedOut + 1 } evs1 evs2 i bk
            [.logSms (hiveboxLogEntry bk n.e164 .skipped_opted_out none)]
            [.logSms (hiveboxLogEntry bk n.e164 .skipped_opted_out none)]
            (by simp [hiveboxStep, hnorm, huk, hopt])
            (by simp [hiveboxStep, hnorm, huk, hopt])
            rfl (by simp [isTransportCallEvent])
        · obtain ⟨id2, hid2⟩ := htr2 i
          exact hivebox_dry_live_cons db cfgA nowMs tr1 tr2 t ih stats
            { stats with sent := stats.sent + 1 } evs1 evs2 i bk
            [.logSms (hiveboxLogEntry bk n.e164 .sent none)]
            ([.transportCall n.e164 (createHiveboxMessage bk.first_name)] ++
              [.logSms (hiveboxLogEntry bk n.e164 .sent none)])
            (by simp [hiveboxStep, hnorm, huk, hopt])
            (by simp [hiveboxStep, hnorm, huk, hopt, sendSMS, hid2])
            (by simp [isLogSmsEvent, isTransportCallEvent])
            (by simp [isLogSmsEvent, isTransportCallEvent])
      · exact hivebox_dry_live_cons db cfgA nowMs tr1 tr2 t ih stats
          { stats with skippedNonUK := stats.skippedNonUK + 1 } evs1 evs2 i bk
          [.logSms (hiveboxLogEntry bk n.e164 .skipped_non_uk (some "Non-UK phone number"))]
          [.logSms (hiveboxLogEntry bk n.e164 .skipped_non_uk (some "Non-UK phone number"))]
          (by simp [hiveboxStep, hnorm, huk])
          (by simp [hiveboxStep, hnorm, huk])
          rfl (by simp [isTransportCallEvent])

theorem drystr_ne_empty (nowMsA : Nat) : "dry-run-" ++ toString nowMsA ≠ "" := by
  intro h
  have h2 := congrArg String.data h
  rw [String.data_append] at h2
  simp at h2

/-- Claim C8: in dry-run mode the sender performs no transport call and
returns the non-empty placeholder id dry-run-(now); and a dry run of the
hivebox job performs no transport calls while leaving an sms_send_log audit
trail identical to a live run whose transport accepts every message. -/
theorem dryRun_sender_and_audit
    (nowMsA : Nat) (t0 : Except SmsError String) (dest text : String)
    (db : OptOutDb) (cfgA : Bool) (jobRunId : Nat) (startedAt finishedAt : String)
    (nowMs : Nat) (bks : List HiveboxBookingRow)
    (tr1 tr2 : Nat → Except SmsError String) :
    (sendSMS true nowMsA t0 dest text =
      (.ok { messageId := "dry-run-" ++ toString nowMsA }, []) ∧
     "dry-run-" ++ toString nowMsA ≠ "") ∧
    ((∀ i, ∃ id, tr2 i = .ok id) →
      ((runHiveboxReminderJob db cfgA jobRunId startedAt finishedAt nowMs
          (.ok bks) tr1 true).2.filter isTransportCallEvent = [] ∧
       (runHiveboxReminderJob db cfgA jobRunId startedAt finishedAt nowMs
          (.ok bks) tr1 true).2.filter isLogSmsEvent =
       (runHiveboxReminderJob db false jobRunId startedAt finishedAt nowMs
          (.ok bks) tr2 false).2.filter isLogSmsEvent)) := by
  constructor
  · exact ⟨by simp [sendSMS], drystr_ne_empty nowMsA⟩
  · intro htr2
    by_cases hempty : bks.isEmpty
    · constructor
      · simp only [runHiveboxReminderJob, hempty, if_true]
        simp [updateJobRunSummaryEvents, isTransportCallEvent]
      · simp only [runHiveboxReminderJob, hempty, if_true]
    · obtain ⟨w1, w2, h1, h2, h3, h4, h5⟩ :=
        hivebox_dry_live_fold db cfgA nowMs tr1 tr2 htr2 bks.enum
          { fetched := bks.length }
          ([Event.createSummary
              { feature := hiveboxFeatureName, started_at := startedAt, finished_at := none,
                fetched_count := 0, sent_count := 0, skipped_count := 0, failed_count := 0,
                error := none }] ++ [Event.fetch] ++
            updateJobRunSummaryEvents jobRunId { fetched_count := some bks.length })
          ([Event.createSummary
              { feature := hiveboxFeatureName, started_at := startedAt, finished_at := none,
                fetched_count := 0, sent_count := 0, skipped_count := 0, failed_count := 0,
                error := none }] ++ [Event.fetch] ++
            updateJobRunSummaryEvents jobRunId { fetched_count := some bks.length })
      constructor
      · simp only [runHiveboxReminderJob, hempty, if_false]
        rw [h1]
        simp [List.filter_append, h4, updateJobRunSummaryEvents,
          isTransportCallEvent]
      · simp only [runHiveboxReminderJob, hempty, if_false]
        rw [h1, h2, h5]
        simp [List.filter_append, h3, updateJobRunSummaryEvents, isLogSmsEvent]

theorem matchesAt_iff (p s : List Char) : matchesAt p s = true ↔ p <+: s := by
  induction p generalizing s with
  | nil => simp [matchesAt]
  | cons c p ih =>
    cases s with
    | nil => simp [matchesAt]
    | cons d s =>
      simp only [matchesAt, Bool.and_eq_true, decide_eq_true_eq, ih]
      constructor
      · rintro ⟨rfl, t, rfl⟩
        exact ⟨t, rfl⟩
      · rintro ⟨t, ht⟩
        cases ht
        exact ⟨rfl, t, rfl⟩

theorem expandRep_no_dollar (matched before after rep : List Char)
    (h : '$' ∉ rep) : expandRep matched before after rep = rep := by
  induction rep with
  | nil => rfl
  | cons c r ih =>
    have hc : c ≠ '$' := fun hh => h (hh ▸ List.mem_cons_self c r)
    have hr : '$' ∉ r := fun hh => h (List.mem_cons_of_mem c hh)
    rw [expandRep.eq_def]
    simp only [if_neg hc]
    rw [ih hr]

theorem replaceAllFuel_irrel (pat rep : List Char) (hrep : '$' ∉ rep) :
    ∀ N s fuel1 fuel2 orig1 orig2 n1 n2, s.length ≤ N → s.length ≤ fuel1 →
      s.length ≤ fuel2 →
      replaceAllFuel fuel1 orig1 n1 s pat rep =
        replaceAllFuel fuel2 orig2 n2 s pat rep := by
  intro N
  induction N with
  | zero =>
    intro s fuel1 fuel2 orig1 orig2 n1 n2 hn _ _
    have : s = [] := List.length_eq_zero.mp (Nat.le_zero.mp hn)
    subst this
    cases fuel1 <;> cases fuel2 <;> rfl
  | succ N ih =>
    intro s fuel1 fuel2 orig1 orig2 n1 n2 hn h1 h2
    cases s with
    | nil => cases fuel1 <;> cases fuel2 <;> rfl
    | cons c rest =>
      simp only [List.length_cons] at hn h1 h2
      cases fuel1 with
      | zero => omega
      | succ f1 =>
        cases fuel2 with
        | zero => omega
        | succ f2 =>
          simp only [replaceAllFuel]
          by_cases hcond : (pat ≠ [] && matchesAt pat (c :: rest)) = true
          · rw [if_pos hcond, if_pos hcond]
            have hpat : pat ≠ [] := of_decide_eq_true (Bool.and_elim_left hcond)
            have hplen : 1 ≤ pat.length := List.length_pos.mpr hpat
            rw [expandRep_no_dollar _ _ _ _ hrep, expandRep_no_dollar _ _ _ _ hrep]
            congr 1
            apply ih
            · simp only [List.length_drop, List.length_cons]
              omega
            · simp only [List.length_drop, List.length_cons]
              omega
            · simp only [List.length_drop, List.length_cons]
              omega
          · rw [if_neg hcond, if_neg hcond]
            congr 1
            apply ih <;> omega

theorem replaceAllL_cons_match (c : Char) (rest pat rep : List Char)
    (hrep : '$' ∉ rep) (hpat : pat ≠ []) (hm : matchesAt pat (c :: rest) = true) :
    replaceAllL (c :: rest) pat rep =
      rep ++ replaceAllL ((c :: rest).drop pat.length) pat rep := by
  have hplen : 1 ≤ pat.length := List.length_pos.mpr hpat
  simp only [replaceAllL, List.length_cons, replaceAllFuel]
  rw [if_pos (by simp [hpat, hm])]
  rw [expandRep_no_dollar _ _ _ _ hrep]
  congr 1
  apply replaceAllFuel_irrel pat rep hrep (rest.length + 1)
  · simp only [List.length_drop, List.length_cons]; omega
  · simp only [List.length_drop, List.length_cons]; omega
  · simp only [List.length_drop, List.length_cons]; omega

theorem replaceAllL_cons_nomatch (c : Char) (rest pat rep : List Char)
    (hrep : '$' ∉ rep)
    (hm : ¬ (pat ≠ [] && matchesAt pat (c :: rest)) = true) :
    replaceAllL (c :: rest) pat rep = c :: replaceAllL rest pat rep := by
  simp only [replaceAllL, List.length_cons, replaceAllFuel]
  rw [if_neg hm]
  congr 1
  apply replaceAllFuel_irrel pat rep hrep (rest.length + 1) <;> omega

theorem replaceAllL_nil (pat rep : List Char) : replaceAllL [] pat rep = [] := rfl

theorem replaceAllL_skip_front (pat rep : List Char) (hrep : '$' ∉ rep)
    (p : List Char) (hpat : pat = '{' :: p) (a : List Char) (ha : '{' ∉ a)
    (t : List Char) :
    replaceAllL (a ++ t) pat rep = a ++ replaceAllL t pat rep := by
  induction a with
  | nil => simp
  | cons c arest ih =>
    have hc : c ≠ '{' := fun h => ha (h ▸ List.mem_cons_self c arest)
    have harest : '{' ∉ arest := fun h => ha (List.mem_cons_of_mem c h)
    rw [List.cons_append, replaceAllL_cons_nomatch c _ pat rep hrep]
    · rw [ih harest]
      simp
    · subst hpat
      simp [matchesAt]
      intro h
      exact absurd h.symm hc

theorem matchesAt_self_append (p b : List Char) : matchesAt p (p ++ b) = true := by
  induction p with
  | nil => rfl
  | cons c t ih => simp [matchesAt, ih]

theorem replaceAllL_match_head (pat rep b : List Char) (hrep : '$' ∉ rep)
    (hpat : pat ≠ []) :
    replaceAllL (pat ++ b) pat rep = rep ++ replaceAllL b pat rep := by
  cases hp : pat with
  | nil => exact absurd hp hpat
  | cons c t =>
    rw [← hp]
    have heq : pat ++ b = c :: (t ++ b) := by rw [hp]; rfl
    rw [heq, replaceAllL_cons_match c (t ++ b) pat rep hrep hpat]
    · congr 1
      have : (c :: (t ++ b)).drop pat.length = b := by
        rw [hp]
        simp
      rw [this]
    · rw [← heq, matchesAt_self_append]

theorem prefix_of_append_cases (x y b : List Char) (h : x <+: y ++ b) :
    x <+: y ∨ y <+: x := by
  by_cases hlen : x.length ≤ y.length
  · left
    obtain ⟨t, ht⟩ := h
    have : x = (y ++ b).take x.length := by rw [← ht]; simp
    rw [this, List.take_append_eq_append_take]
    have : x.length - y.length = 0 := by omega
    rw [this]
    simp only [List.take_zero, List.append_nil]
    exact ⟨_, List.take_append_drop _ _⟩
  · right
    obtain ⟨t, ht⟩ := h
    have hy : y = (y ++ b).take y.length := by simp
    have : y = x.take y.length := by
      rw [hy, ← ht, List.take_append_eq_append_take]
      have : y.length - x.length = 0 := by omega
      rw [this]
      simp
    rw [this]
    exact ⟨_, (List.take_append_drop _ _)⟩

theorem placeholder_eq (key : String) : placeholder key = '{' :: (key.data ++ ['}']) := rfl

theorem replaceAllL_skip_other_ph (k2 k : String) (rep t : List Char)
    (hrep : '$' ∉ rep)
    (h1 : ¬ (k.data ++ ['}'] <+: k2.data ++ ['}']))
    (h2 : ¬ (k2.data ++ ['}'] <+: k.data ++ ['}']))
    (hk2 : '{' ∉ k2.data) :
    replaceAllL (placeholder k2 ++ t) (placeholder k) rep =
      placeholder k2 ++ replaceAllL t (placeholder k) rep := by
  have harr : placeholder k2 ++ t = '{' :: ((k2.data ++ ['}']) ++ t) := by
    rw [placeholder_eq]
    simp
  have hfree : '{' ∉ k2.data ++ ['}'] := by
    intro hmem
    rcases List.mem_append.mp hmem with h | h
    · exact hk2 h
    · simp at h
  rw [harr, replaceAllL_cons_nomatch _ _ _ rep hrep]
  · rw [replaceAllL_skip_front (placeholder k) rep hrep (k.data ++ ['}'])
      (placeholder_eq k) (k2.data ++ ['}']) hfree t]
    rw [placeholder_eq k2]
    simp
  · intro hcond
    have hm := Bool.and_elim_right hcond
    rw [placeholder_eq] at hm
    simp only [matchesAt, Bool.and_eq_true, decide_eq_true_eq] at hm
    have hpre := (matchesAt_iff _ _).mp hm.2
    rcases prefix_of_append_cases _ _ _ hpre with h | h
    · exact h1 h
    · exact h2 h

theorem replaceAll_flatten (k : String) (v : List Char) (hv : '$' ∉ v)
    (hk : '{' ∉ k.data) :
    ∀ pieces : List TemplatePiece,
      (∀ s, TemplatePiece.lit s ∈ pieces → '{' ∉ s) →
      (∀ k2, TemplatePiece.ph k2 ∈ pieces → k2 = k ∨
        ('{' ∉ k2.data ∧ ¬ (k.data ++ ['}'] <+: k2.data ++ ['}']) ∧
          ¬ (k2.data ++ ['}'] <+: k.data ++ ['}']))) →
      replaceAllL (flattenTemplate pieces) (placeholder k) v =
        flattenTemplate (pieces.map (substPiece k v)) := by
  intro pieces
  induction pieces with
  | nil => intro _ _; rfl
  | cons p r ih =>
    intro hlits hphs
    have ih2 := ih (fun s2 h => hlits s2 (List.mem_cons_of_mem _ h))
      (fun k2 h => hphs k2 (List.mem_cons_of_mem _ h))
    cases p with
    | lit s =>
      have hs : '{' ∉ s := hlits s (List.mem_cons_self _ _)
      simp only [flattenTemplate, List.map_cons, substPiece]
      rw [replaceAllL_skip_front (placeholder k) v hv (k.data ++ ['}'])
        (placeholder_eq k) s hs]
      rw [ih2]
    | ph k2 =>
      by_cases hk2 : k2 = k
      · subst hk2
        simp only [flattenTemplate, List.map_cons, substPiece, if_pos rfl]
        rw [replaceAllL_match_head (placeholder k2) v _ hv (by rw [placeholder_eq]; simp)]
        rw [ih2]
      · obtain h | ⟨hbk2, hp1, hp2⟩ := hphs k2 (List.mem_cons_self _ _)
        · exact absurd h hk2
        simp only [flattenTemplate, List.map_cons, substPiece, if_neg hk2]
        rw [replaceAllL_skip_other_ph k2 k v (flattenTemplate r) hv hp1 hp2 hbk2]
        rw [ih2]

theorem substFold_map (kvs : List (String × String)) :
    ∀ pieces : List TemplatePiece,
      kvs.foldl (fun ps kv => ps.map (substPiece kv.1 kv.2.data)) pieces =
        pieces.map (fun p => kvs.foldl (fun q kv => substPiece kv.1 kv.2.data q) p) := by
  induction kvs with
  | nil => intro pieces; simp
  | cons kv rest ih =>
    intro pieces
    simp only [List.foldl_cons]
    rw [ih, List.map_map]
    rfl

theorem substFold_lit (kvs : List (String × String)) (s : List Char) :
    kvs.foldl (fun q kv => substPiece kv.1 kv.2.data q) (.lit s) = .lit s := by
  induction kvs with
  | nil => rfl
  | cons kv rest ih =>
    simp only [List.foldl_cons, substPiece]
    exact ih

theorem substFold_ph (kvs : List (String × String)) :
    ∀ k : String, k ∈ kvs.map Prod.fst →
      kvs.foldl (fun q kv => substPiece kv.1 kv.2.data q) (.ph k) =
        .lit (lookupValue kvs k).data := by
  induction kvs with
  | nil =>
    intro k hk
    simp at hk
  | cons kv rest ih =>
    intro k hk
    rw [List.foldl_cons]
    by_cases hek : k = kv.1
    · have hstep : substPiece kv.1 kv.2.data (TemplatePiece.ph k) =
          TemplatePiece.lit kv.2.data := by
        simp [substPiece, hek]
      rw [hstep, substFold_lit]
      simp [lookupValue, List.find?_cons, hek.symm]
    · have hstep : substPiece kv.1 kv.2.data (TemplatePiece.ph k) =
          TemplatePiece.ph k := by
        simp [substPiece, hek]
      have hk2 : k ∈ rest.map Prod.fst := by
        simp only [List.map_cons, List.mem_cons] at hk
        rcases hk with h | h
        · exact absurd h hek
        · exact h
      rw [hstep, ih k hk2]
      have hne : ¬ (kv.1 = k) := fun hh => hek hh.symm
      simp [lookupValue, List.find?_cons, hne]

theorem flatten_substAll_renderPieces (vars : TemplateVariables) :
    ∀ pieces : List TemplatePiece,
      (∀ k, TemplatePiece.ph k ∈ pieces → k ∈ (variableMap vars).map Prod.fst) →
      flattenTemplate ((variableMap vars).foldl
          (fun ps kv => ps.map (substPiece kv.1 kv.2.data)) pieces) =
        renderPieces vars pieces := by
  intro pieces
  induction pieces with
  | nil =>
    intro _
    rw [substFold_map]
    rfl
  | cons p r ih =>
    intro hph
    rw [substFold_map]
    simp only [List.map_cons]
    have ihr : flattenTemplate (r.map (fun p2 => (variableMap vars).foldl
        (fun q kv => substPiece kv.1 kv.2.data q) p2)) = renderPieces vars r := by
      rw [← substFold_map]
      exact ih (fun k h => hph k (List.mem_cons_of_mem _ h))
    cases p with
    | lit s =>
      rw [substFold_lit]
      simp only [flattenTemplate, renderPieces]
      rw [ihr]
    | ph k =>
      rw [substFold_ph (variableMap vars) k (hph k (List.mem_cons_self _ _))]
      simp only [flattenTemplate, renderPieces]
      rw [ihr]

theorem renderFold_flatten (kvs : List (String × String))
    (hvals : ∀ kv ∈ kvs, '{' ∉ (kv.2 : String).data ∧ '$' ∉ (kv.2 : String).data)
    (hkeysb : ∀ kv ∈ kvs, '{' ∉ (kv.1 : String).data)
    (hmnp : ∀ kv1 ∈ kvs, ∀ kv2 ∈ kvs, kv1.1 ≠ kv2.1 →
      ¬ ((kv1.1 : String).data ++ ['}'] <+: (kv2.1 : String).data ++ ['}'])) :
    ∀ pieces : List TemplatePiece,
      (∀ s, TemplatePiece.lit s ∈ pieces → '{' ∉ s) →
      (∀ k, TemplatePiece.ph k ∈ pieces → k ∈ kvs.map Prod.fst) →
      kvs.foldl (fun acc kv => replaceAllL acc (placeholder kv.1) kv.2.data)
        (flattenTemplate pieces) =
        flattenTemplate (kvs.foldl
          (fun ps kv => ps.map (substPiece kv.1 kv.2.data)) pieces) := by
  induction kvs with
  | nil => intro pieces _ _; rfl
  | cons kv rest ih =>
    intro pieces hlits hphs
    simp only [List.foldl_cons]
    rw [replaceAll_flatten kv.1 kv.2.data (hvals kv (List.mem_cons_self _ _)).2
      (hkeysb kv (List.mem_cons_self _ _)) pieces hlits ?hph]
    case hph =>
      intro k2 hk2mem
      by_cases he : k2 = kv.1
      · exact Or.inl he
      · right
        obtain ⟨kv2, hkv2mem, hkv2eq⟩ := List.mem_map.mp (hphs k2 hk2mem)
        refine ⟨?_, ?_, ?_⟩
        · rw [← hkv2eq]
          exact hkeysb kv2 hkv2mem
        · rw [← hkv2eq]
          exact hmnp kv (List.mem_cons_self _ _) kv2 hkv2mem
            (fun hh => he (hkv2eq.symm.trans hh.symm))
        · rw [← hkv2eq]
          exact hmnp kv2 hkv2mem kv (List.mem_cons_self _ _)
            (fun hh => he (hkv2eq.symm.trans hh))
    apply ih
    · intro kv2 h
      exact hvals kv2 (List.mem_cons_of_mem _ h)
    · intro kv2 h
      exact hkeysb kv2 (List.mem_cons_of_mem _ h)
    · intro kv1 h1 kv2 h2 hne
      exact hmnp kv1 (List.mem_cons_of_mem _ h1) kv2 (List.mem_cons_of_mem _ h2) hne
    · intro s hs
      obtain ⟨p, hp, hpe⟩ := List.mem_map.mp hs
      cases p with
      | lit s0 =>
        have : s0 = s := by
          simp only [substPiece] at hpe
          cases hpe
          rfl
        subst this
        exact hlits s0 hp
      | ph kp =>
        simp only [substPiece] at hpe
        by_cases hekp : kp = kv.1
        · rw [if_pos hekp] at hpe
          cases hpe
          exact (hvals kv (List.mem_cons_self _ _)).1
        · rw [if_neg hekp] at hpe
          cases hpe
    · intro k2 hk2
      obtain ⟨p, hp, hpe⟩ := List.mem_map.mp hk2
      cases p with
      | lit s0 =>
        simp only [substPiece] at hpe
        cases hpe
      | ph kp =>
        simp only [substPiece] at hpe
        by_cases hekp : kp = kv.1
        · rw [if_pos hekp] at hpe
          cases hpe
        · rw [if_neg hekp] at hpe
          cases hpe
          have := hphs k2 hp
          simp only [List.map_cons, List.mem_cons] at this
          rcases this with h | h
          · exact absurd h hekp
          · exact h

theorem variableMap_keys (vars : TemplateVariables) :
    (variableMap vars).map Prod.fst =
      ["firstName", "lastName", "fullName", "stashpointName", "reviewUrl",
       "city", "bookingId"] := rfl

theorem variableMap_keys_brace_free (vars : TemplateVariables) :
    ∀ kv ∈ variableMap vars, '{' ∉ (kv.1 : String).data := by
  intro kv hkv
  have hmem := List.mem_map_of_mem Prod.fst hkv
  rw [variableMap_keys] at hmem
  simp only [List.mem_cons, List.not_mem_nil, or_false] at hmem
  rcases hmem with h | h | h | h | h | h | h <;> rw [h] <;> decide

theorem variableMap_keys_non_overlapping (vars : TemplateVariables) :
    ∀ kv1 ∈ variableMap vars, ∀ kv2 ∈ variableMap vars, kv1.1 ≠ kv2.1 →
      ¬ ((kv1.1 : String).data ++ ['}'] <+: (kv2.1 : String).data ++ ['}']) := by
  intro kv1 h1 kv2 h2 hne
  have m1 := List.mem_map_of_mem Prod.fst h1
  have m2 := List.mem_map_of_mem Prod.fst h2
  rw [variableMap_keys] at m1 m2
  simp only [List.mem_cons, List.not_mem_nil, or_false] at m1 m2
  rcases m1 with h1e | h1e | h1e | h1e | h1e | h1e | h1e <;>
    rcases m2 with h2e | h2e | h2e | h2e | h2e | h2e | h2e <;>
    rw [h1e, h2e] at hne ⊢ <;>
    first
    | exact absurd rfl hne
    | decide

/-- Claim C1 (evidence): the daily job has no per-booking idempotency guard:
when the same booking appears twice in one run's candidate list, both copies
are classified eligible and both are sent — `sent` ends at 2 and the send
records show the same booking id twice. The `review_sms_log` guard the README
and migration promise is never consulted by `runJob`. -/
theorem runJob_duplicate_booking_sent_twice :
    (runJob [] [("london", ["u1"])] (fun _ => (0, 0)) (fun _ => .ok "id1") false 5
      [{ booking_id := 1, stashpoint_name := "S", city := some "London",
         phone_number := some "+447911123456", first_name := some "A",
         last_name := none, pickup := none },
       { booking_id := 1, stashpoint_name := "S", city := some "London",
         phone_number := some "+447911123456", first_name := some "A",
         last_name := none, pickup := none }]).1.found = 2 ∧
    (runJob [] [("london", ["u1"])] (fun _ => (0, 0)) (fun _ => .ok "id1") false 5
      [{ booking_id := 1, stashpoint_name := "S", city := some "London",
         phone_number := some "+447911123456", first_name := some "A",
         last_name := none, pickup := none },
       { booking_id := 1, stashpoint_name := "S", city := some "London",
         phone_number := some "+447911123456", first_name := some "A",
         last_name := none, pickup := none }]).1.sent = 2 ∧
    ((runJob [] [("london", ["u1"])] (fun _ => (0, 0)) (fun _ => .ok "id1") false 5
      [{ booking_id := 1, stashpoint_name := "S", city := some "London",
         phone_number := some "+447911123456", first_name := some "A",
         last_name := none, pickup := none },
       { booking_id := 1, stashpoint_name := "S", city := some "London",
         phone_number := some "+447911123456", first_name := some "A",
         last_name := none, pickup := none }]).2.1).map SendRecord.booking_id = [1, 1] := by
  refine ⟨by decide, by decide, by decide⟩

/-- Claim C4 (amended): only the hourly job keeps a Job Run Summary. It inserts
the row with zero counts and the start timestamp as the very first durable
action, the candidate query comes strictly after, and on a fetch error the
summary is stamped with the end timestamp and the error and the failure
propagates; the daily job writes no summary row at all. -/
theorem jobRunSummary_lifecycle_amended
    (db : OptOutDb) (cfgDryRun : Bool) (jobRunId : Nat) (startedAt finishedAt : String)
    (nowMs : Nat) (fetchResult : Except String (List HiveboxBookingRow))
    (transport : Nat → Except SmsError String) (isDryRun : Bool) :
    ((runHiveboxReminderJob db cfgDryRun jobRunId startedAt finishedAt nowMs
        fetchResult transport isDryRun).2[0]? = some (.createSummary
        { feature := hiveboxFeatureName, started_at := startedAt, finished_at := none,
          fetched_count := 0, sent_count := 0, skipped_count := 0, failed_count := 0,
          error := none })) ∧
    ((runHiveboxReminderJob db cfgDryRun jobRunId startedAt finishedAt nowMs
        fetchResult transport isDryRun).2[1]? = some .fetch) ∧
    (∀ e, fetchResult = .error e →
      (runHiveboxReminderJob db cfgDryRun jobRunId startedAt finishedAt nowMs
          fetchResult transport isDryRun).1 = .error e ∧
      (runHiveboxReminderJob db cfgDryRun jobRunId startedAt finishedAt nowMs
          fetchResult transport isDryRun).2 =
        [.createSummary
          { feature := hiveboxFeatureName, started_at := startedAt, finished_at := none,
            fetched_count := 0, sent_count := 0, skipped_count := 0, failed_count := 0,
            error := none },
         .fetch,
         .updateSummary jobRunId
          { finished_at := some (some finishedAt), error := some (some e) }]) ∧
    (∀ (ddb : OptOutDb) (map : ReviewLinksMap) (rands : Nat → Nat × Nat)
        (dtr : Nat → Except SmsError String) (dcfg : Bool) (dnow : Nat)
        (bookings : List BookingRow),
      ((runJob ddb map rands dtr dcfg dnow bookings).2.2).filter
        isCreateSummaryEvent = []) := by
  obtain ⟨h1, h2, h3⟩ := hivebox_summary_lifecycle_draft db cfgDryRun jobRunId
    startedAt finishedAt nowMs fetchResult transport isDryRun
  exact ⟨h1, h2, h3, fun ddb map rands dtr dcfg dnow bookings =>
    runJob_writes_no_summary ddb map rands dtr dcfg dnow bookings⟩

/-- Witness for C4: a hivebox run whose candidate query fails with "db down"
returns that error to the caller and leaves exactly the created summary, the
fetch attempt, and the error-stamping update in the durable trace. -/
theorem jobRunSummary_lifecycle_amended_witness :
    (runHiveboxReminderJob [] false 7 "2024-01-01T10:00" "2024-01-01T10:01" 0
        (.error "db down") (fun _ => .ok "id") false).1 = .error "db down" ∧
    (runHiveboxReminderJob [] false 7 "2024-01-01T10:00" "2024-01-01T10:01" 0
        (.error "db down") (fun _ => .ok "id") false).2 =
      [.createSummary
        { feature := hiveboxFeatureName, started_at := "2024-01-01T10:00",
          finished_at := none, fetched_count := 0, sent_count := 0,
          skipped_count := 0, failed_count := 0, error := none },
       .fetch,
       .updateSummary 7
        { finished_at := some (some "2024-01-01T10:01"),
          error := some (some "db down") }] :=
  (jobRunSummary_lifecycle_amended [] false 7 "2024-01-01T10:00" "2024-01-01T10:01" 0
    (.error "db down") (fun _ => .ok "id") false).2.2.1 "db down" rfl

/-- Claim C6: for a valid domestic (UK) national number, the international form
and the local 0-prefixed form normalize to the identical E.164 string, and
normalizing the normalizer's own output returns it unchanged. -/
theorem normalizePhone_intl_local_idempotent (nsn : String) (h : isUkNSN nsn = true) :
    normalizePhone (some ("+44" ++ nsn)) = some ⟨"+44" ++ nsn⟩ ∧
    normalizePhone (some ("0" ++ nsn)) = some ⟨"+44" ++ nsn⟩ ∧
    ∀ r, normalizePhone (some ("0" ++ nsn)) = some r →
      normalizePhone (some r.e164) = some r := by
  obtain ⟨h1, h2⟩ := normalizePhone_intl_local nsn h
  refine ⟨h1, h2, ?_⟩
  intro r hr
  rw [h2] at hr
  cases hr
  exact h1

/-- Witness for C6 at the national number 7911123456. -/
theorem normalizePhone_intl_local_idempotent_witness :
    isUkNSN "7911123456" = true ∧
    normalizePhone (some ("+44" ++ "7911123456")) = some ⟨"+44" ++ "7911123456"⟩ ∧
    normalizePhone (some ("0" ++ "7911123456")) = some ⟨"+44" ++ "7911123456"⟩ :=
  ⟨by decide, (normalizePhone_intl_local_idempotent "7911123456" (by decide)).1,
   (normalizePhone_intl_local_idempotent "7911123456" (by decide)).2.1⟩

/-- Claim C7: adding a phone makes isOptedOut true; removing makes it false;
and upserting the same phone twice leaves exactly one record for that phone,
carrying the second source. -/
theorem optOutLedger_add_remove_upsert (db : OptOutDb) (phone s1 s2 : String)
    (n1 n2 : Option String) (t1 t2 : String) :
    isOptedOut (addOptOut db phone s1 n1 t1) phone = true ∧
    isOptedOut (removeOptOut db phone).1 phone = false ∧
    (OptOutDbWF db →
      ((addOptOut (addOptOut db phone s1 n1 t1) phone s2 n2 t2).filter
          (fun r => r.phone_e164 = phone)).length = 1 ∧
      ∀ r ∈ addOptOut (addOptOut db phone s1 n1 t1) phone s2 n2 t2,
        r.phone_e164 = phone → r.source = s2) :=
  ⟨optout_add_then_member db phone s1 n1 t1,
   optout_remove_then_not_member db phone,
   fun hwf => addOptOut_upsert db phone s1 s2 n1 n2 t1 t2 hwf⟩

/-- Witness for C7 on the empty ledger. -/
theorem optOutLedger_add_remove_upsert_witness :
    OptOutDbWF [] ∧
    isOptedOut (addOptOut [] "+447911123456" "stop" none "t1") "+447911123456" = true ∧
    isOptedOut (removeOptOut [] "+447911123456").1 "+447911123456" = false ∧
    ((addOptOut (addOptOut [] "+447911123456" "stop" none "t1") "+447911123456"
        "manual" (some "note") "t2").filter
        (fun r => r.phone_e164 = "+447911123456")).length = 1 ∧
    (∀ r ∈ addOptOut (addOptOut [] "+447911123456" "stop" none "t1") "+447911123456"
        "manual" (some "note") "t2",
      r.phone_e164 = "+447911123456" → r.source = "manual") :=
  ⟨by simp [OptOutDbWF],
   (optOutLedger_add_remove_upsert [] "+447911123456" "stop" "manual" none
     (some "note") "t1" "t2").1,
   (optOutLedger_add_remove_upsert [] "+447911123456" "stop" "manual" none
     (some "note") "t1" "t2").2.1,
   ((optOutLedger_add_remove_upsert [] "+447911123456" "stop" "manual" none
     (some "note") "t1" "t2").2.2 (by simp [OptOutDbWF])).1,
   ((optOutLedger_add_remove_upsert [] "+447911123456" "stop" "manual" none
     (some "note") "t1" "t2").2.2 (by simp [OptOutDbWF])).2⟩

/-- Claim C9 counterexample: the placeholder of an unknown field is left
literally in the rendered output instead of rendering as the empty string. -/
theorem renderTemplate_unknown_placeholder_left_literal :
    renderTemplate "{foo}" {} = "{foo}" ∧ renderTemplate "{foo}" {} ≠ "" :=
  ⟨by decide, by decide⟩

/-- The renderer honours JavaScript's special replacement patterns: a field
value containing the sequence dollar-ampersand re-inserts the matched
placeholder text instead of appearing literally. -/
theorem renderTemplate_dollar_matched :
    renderTemplate "{firstName}" { firstName := some "$&" } = "{firstName}" ∧
    renderTemplate "{firstName}" { firstName := some "$&" } ≠ "$&" :=
  ⟨by decide, by decide⟩

/-- Claim C9 (amended): for every template assembled from brace-free literal
text and placeholders drawn from the seven known names, with field values free
of braces and of dollar signs (a dollar can trigger JavaScript's special
replacement patterns), the renderer replaces every placeholder occurrence with
its field value; a missing or empty field renders as the empty string;
placeholders outside the known set are left literally in the output
(counterexample above); the renderer is a total function and never raises. -/
theorem renderTemplate_known_placeholders_amended :
    (∀ (vars : TemplateVariables) (pieces : List TemplatePiece),
      pieces.all pieceLitBraceFree = true →
      pieces.all (pieceKeyKnown ((variableMap vars).map Prod.fst)) = true →
      (∀ kv ∈ variableMap vars,
        '{' ∉ (kv.2 : String).data ∧ '$' ∉ (kv.2 : String).data) →
      renderTemplateL (flattenTemplate pieces) vars = renderPieces vars pieces) ∧
    (∀ kv ∈ variableMap {}, (kv.2 : String) = "") ∧
    (∀ kv ∈ variableMap
        { firstName := some "", lastName := some "", fullName := some "",
          stashpointName := some "", reviewUrl := some "", city := some "",
          bookingId := some "" }, (kv.2 : String) = "") := by
  refine ⟨?_, by decide, by decide⟩
  intro vars pieces hlitsb hphsb hvals
  have hlits : ∀ s, TemplatePiece.lit s ∈ pieces → '{' ∉ s := by
    intro s hs
    have := List.all_eq_true.mp hlitsb _ hs
    simpa [pieceLitBraceFree] using this
  have hphs : ∀ k, TemplatePiece.ph k ∈ pieces →
      k ∈ (variableMap vars).map Prod.fst := by
    intro k hk
    have := List.all_eq_true.mp hphsb _ hk
    simpa [pieceKeyKnown] using this
  unfold renderTemplateL
  rw [renderFold_flatten (variableMap vars) hvals (variableMap_keys_brace_free vars)
    (variableMap_keys_non_overlapping vars) pieces hlits hphs]
  exact flatten_substAll_renderPieces vars pieces hphs

/-- Witness for C9: a template mixing literal text with the firstName and
reviewUrl placeholders renders each placeholder to its field value. -/
theorem renderTemplate_known_placeholders_amended_witness :
    renderTemplateL (flattenTemplate
        [TemplatePiece.lit "Hi ".data, TemplatePiece.ph "firstName",
         TemplatePiece.lit ", see ".data, TemplatePiece.ph "reviewUrl",
         TemplatePiece.lit "!".data])
      { firstName := some "Sam", reviewUrl := some "stasher.example/r" } =
    renderPieces { firstName := some "Sam", reviewUrl := some "stasher.example/r" }
      [TemplatePiece.lit "Hi ".data, TemplatePiece.ph "firstName",
       TemplatePiece.lit ", see ".data, TemplatePiece.ph "reviewUrl",
       TemplatePiece.lit "!".data] :=
  renderTemplate_known_placeholders_amended.1
    { firstName := some "Sam", reviewUrl := some "stasher.example/r" }
    [TemplatePiece.lit "Hi ".data, TemplatePiece.ph "firstName",
     TemplatePiece.lit ", see ".data, TemplatePiece.ph "reviewUrl",
     TemplatePiece.lit "!".data]
    (by decide) (by decide) (by decide)

/-- Witness for C5 at a whitespace-only input. -/
theorem normalizePhone_blank_invalid_total_witness :
    ((some "   " : Option String) = none ∨
      ∀ c ∈ ((some "   " : Option String).getD "").data, c.isWhitespace = true) ∧
    normalizePhone (some "   ") = none :=
  ⟨Or.inr (by decide),
   (normalizePhone_blank_invalid_total (some "   ")).1 (Or.inr (by decide))⟩

/-- Witness for C3: with a transport that rejects the only candidate, the loop
still records exactly that failure with its error detail. -/
theorem sendLoop_failure_contained_witness :
    0 < ([⟨⟨1, "S", some "London", some "+447911123456", some "A", none, none⟩,
            "+447911123456", "u1"⟩] : List EligibleBooking).length ∧
    (runSendPass false 5 (fun _ => .error ⟨500, "boom"⟩)
        [⟨⟨1, "S", some "London", some "+447911123456", some "A", none, none⟩,
          "+447911123456", "u1"⟩]).2.2.1[0]? =
      some ⟨1, "+447911123456", .error ⟨500, "boom"⟩⟩ :=
  ⟨by decide,
   (sendLoop_failure_contained false 5 (fun _ => .error ⟨500, "boom"⟩)
      [⟨⟨1, "S", some "London", some "+447911123456", some "A", none, none⟩,
        "+447911123456", "u1"⟩]
      [] false false 0 "s" "f" 0 [] (fun _ => .ok "x")).1.2.1 0 (by decide)⟩

/-- Witness for C8: dry run of the hivebox job over one candidate performs no
transport call and leaves the same audit log as a live run whose transport
accepts everything. -/
theorem dryRun_sender_and_audit_witness :
    (∀ i : Nat, ∃ id, (fun _ : Nat => (.ok "id1" : Except SmsError String)) i = .ok id) ∧
    ((runHiveboxReminderJob [] false 7 "s" "f" 0
        (.ok [{ first_name := some "A", last_name := none,
                phone_number := some "+447911123456", booking_id := 1,
                pickup := none, stashpoint_name := "S", city := none,
                access_code := "C" }])
        (fun _ => .error ⟨500, "boom"⟩) true).2.filter isTransportCallEvent = [] ∧
     (runHiveboxReminderJob [] false 7 "s" "f" 0
        (.ok [{ first_name := some "A", last_name := none,
                phone_number := some "+447911123456", booking_id := 1,
                pickup := none, stashpoint_name := "S", city := none,
                access_code := "C" }])
        (fun _ => .error ⟨500, "boom"⟩) true).2.filter isLogSmsEvent =
     (runHiveboxReminderJob [] false 7 "s" "f" 0
        (.ok [{ first_name := some "A", last_name := none,
                phone_number := some "+447911123456", booking_id := 1,
                pickup := none, stashpoint_name := "S", city := none,
                access_code := "C" }])
        (fun _ => .ok "id1") false).2.filter isLogSmsEvent) :=
  ⟨fun _ => ⟨"id1", rfl⟩,
   (dryRun_sender_and_audit 0 (.ok "x") "p" "m" [] false 7 "s" "f" 0
      [{ first_name := some "A", last_name := none,
         phone_number := some "+447911123456", booking_id := 1,
         pickup := none, stashpoint_name := "S", city := none,
         access_code := "C" }]
      (fun _ => .error ⟨500, "boom"⟩) (fun _ => .ok "id1")).2
     (fun _ => ⟨"id1", rfl⟩)⟩

/-- Witness for C10: a completed hourly run over one candidate satisfies the
count conservation equations. -/
theorem runStats_conserved_witness :
    (runHiveboxReminderJob [] false 7 "s" "f" 0
        (.ok [{ first_name := some "A", last_name := none,
                phone_number := some "+447911123456", booking_id := 1,
                pickup := none, stashpoint_name := "S", city := none,
                access_code := "C" }])
        (fun _ => .ok "id1") false).1 =
      .ok { fetched := 1, sent := 1, skippedOptedOut := 0,
            skippedInvalidPhone := 0, skippedNonUK := 0, failed := 0 } ∧
    ((1 : Nat) =
      ([({ first_name := some "A", last_name := none,
           phone_number := some "+447911123456", booking_id := 1,
           pickup := none, stashpoint_name := "S", city := none,
           access_code := "C" } : HiveboxBookingRow)]).length ∧
     (1 : Nat) = 1 + 0 + 0 + 0 + 0) :=
  ⟨by decide,
   (runStats_conserved [] [] (fun _ => (0, 0)) (fun _ => .ok "x") false 0 []
      [] false false 7 "s" "f" 0
      [{ first_name := some "A", last_name := none,
         phone_number := some "+447911123456", booking_id := 1,
         pickup := none, stashpoint_name := "S", city := none,
         access_code := "C" }]
      (fun _ => .ok "id1")).2
     { fetched := 1, sent := 1, skippedOptedOut := 0, skippedInvalidPhone := 0,
       skippedNonUK := 0, failed := 0 } (by decide)⟩

end SmsReview
